import Mathlib

/-!
Shallow embedding of the device session protocol engine of
`apps/CameraITS/utils/its_session_utils.py` (class `ItsSession`), together
with theorems settling the specification claims about it.

Modelling conventions:
* Bytes are `Nat`; a buffer is a `List Nat`.
* The inbound side of the TCP socket is a `List Chunk`: each element is the
  byte block delivered by one successful `recv`/`recv_into` call.  An empty
  chunk models a recv that returns zero bytes (the peer closed the
  connection); an exhausted list models a peer that delivers nothing more.
* Python dictionaries whose key sets are fixed by the code are modelled as
  total functions together with explicit key-domain checks mirroring the
  places where the code would raise `KeyError`.
* Python exceptions are the constructors of `ItsError`.
* Timeouts are in whole seconds as `Nat` (all the constants involved,
  20.0, 5.0 and the floor division by 1e9, are integral valued).
-/

namespace Its

/-- Errors raised by the engine.  `CameraItsError` instances are told apart
by their message; builtin Python exceptions keep their own constructors. -/
inductive ItsError where
  | channelClosed        -- CameraItsError: Problem with socket on device side
  | socketTimeout        -- socket.timeout: the wire ran out before the loop was done
  | invalidResponse      -- CameraItsError: Invalid command response
  | yuvSameSize          -- CameraItsError: ITS does not support yuv outputs of same buffer size
  | duplicateFormat      -- CameraItsError: Duplicate format requested
  | differentRawFormats  -- CameraItsError: Different raw formats not supported
  | propsUnavailable     -- CameraItsError: Camera props are unavailable
  | reprocessWithRepeat  -- CameraItsError: repeating request + reprocessing is not supported
  | convergenceFailed    -- CameraItsError: 3A failed to converge
  | noAvailablePort      -- CameraItsError: cannot find an available port
  | lockBindFailed       -- CameraItsError: socket lock returns error
  | incorrectFormat      -- AssertionError: Incorrect format
  | incorrectSize        -- AssertionError: Incorrect size
  | keyError             -- Python KeyError
  | indexError           -- Python IndexError
  | typeError            -- Python TypeError
  | valueError           -- Python ValueError
  | attributeError       -- Python AttributeError
  deriving DecidableEq, Repr

/-! ## Transport channel and frame codec (`__read_response_from_socket`) -/

/-- One byte on the wire. -/
abbrev Byte := Nat

/-- One block of bytes delivered by a single successful recv call. -/
abbrev Chunk := List Byte

/-- Model of `self.sock.recv_into(view, n)`: the kernel hands over the next
pending block, truncated to at most `n` bytes (the remainder stays queued).
An exhausted stream yields zero bytes, as a closed peer does. -/
def recvInto (n : Nat) : List Chunk → Chunk × List Chunk
  | [] => ([], [])
  | c :: cs => if c.length ≤ n then (c, cs) else (c.take n, c.drop n :: cs)

/-- The payload loop of `__read_response_from_socket` (lines 392-399):
`while n > 0: nbytes = self.sock.recv_into(view, n); view = view[nbytes:];
n -= nbytes`.  The loop has no termination guarantee of its own, so it is
given fuel; a result of `none` means the given fuel did not suffice (and,
when no fuel suffices, that the Python loop spins forever). -/
def readPayload : Nat → Nat → List Chunk → Option (List Byte × List Chunk)
  | _, 0, s => some ([], s)
  | 0, _ + 1, _ => none
  | fuel + 1, n + 1, s =>
    let p := recvInto (n + 1) s
    match readPayload fuel (n + 1 - p.1.length) p.2 with
    | some q => some (p.1 ++ q.1, q.2)
    | none => none

/-- Model of `self.sock.recv(1)` in the line-reading phase: `none` is the
empty string returned by a closed peer (either an empty pending block or an
exhausted stream). -/
def recv1 : List Chunk → Option (Byte × List Chunk)
  | [] => none
  | [] :: _ => none
  | (b :: bs) :: cs => some (b, if bs.isEmpty then cs else bs :: cs)

/-- Total bytes still queued on the stream. -/
def totalBytes (s : List Chunk) : Nat := (s.map List.length).sum

theorem recv1_totalBytes {s : List Chunk} {p : Byte × List Chunk}
    (h : recv1 s = some p) : totalBytes p.2 < totalBytes s := by
  match s with
  | [] => simp [recv1] at h
  | [] :: _ => simp [recv1] at h
  | (b :: bs) :: cs =>
    simp only [recv1, Option.some.injEq] at h
    subst h
    cases bs with
    | nil => simp [totalBytes]
    | cons x xs =>
      simp [totalBytes]

/-- The newline byte terminating each JSON line. -/
def newlineByte : Byte := 10

/-- The line-reading phase of `__read_response_from_socket` (lines 381-387):
`while not chars or chars[-1] != chr(10): ch = self.sock.recv(1); if not ch:
raise CameraItsError(...)`.  Reads one byte at a time until a newline is
accumulated; an empty read raises the channel-closed error. -/
def readLineAux (s : List Chunk) (acc : List Byte) :
    Except ItsError (List Byte × List Chunk) :=
  if acc ≠ [] ∧ acc.getLast? = some newlineByte then .ok (acc, s)
  else
    match h : recv1 s with
    | none => .error .channelClosed
    | some p => readLineAux p.2 (acc ++ [p.1])
termination_by totalBytes s
decreasing_by exact recv1_totalBytes h

/-- The decoded JSON object of one inbound line, as far as the codec itself
inspects it (the `objValue` payload is interpreted by the callers and is
not part of the codec model). -/
structure RespFrame where
  tag : String
  strValue : Option String := none
  bufValueSize : Option Nat := none
  deriving DecidableEq, Repr

/-- Model of `ItsSession.__read_response_from_socket` (lines 375-401).  The
JSON decoding of the completed line is a collaborator and is passed in as
`parse`.  The overall result is `none` exactly when the payload loop runs
out of fuel; a payload of `none` is Python `buf = None`, the case where the
line declares no `bufValueSize` and zero payload bytes are read. -/
def read_response_from_socket (parse : List Byte → RespFrame) (fuel : Nat)
    (s : List Chunk) :
    Option (Except ItsError (RespFrame × Option (List Byte) × List Chunk)) :=
  match readLineAux s [] with
  | .error e => some (.error e)
  | .ok q =>
    let jobj := parse q.1
    match jobj.bufValueSize with
    | none => some (.ok (jobj, none, q.2))
    | some n =>
      match readPayload fuel n q.2 with
      | some r => some (.ok (jobj, some r.1, r.2))
      | none => none

theorem totalBytes_eq_flatten_length (s : List Chunk) :
    totalBytes s = s.flatten.length := by
  induction s with
  | nil => rfl
  | cons c cs ih =>
    simp only [totalBytes, List.map_cons, List.sum_cons, List.flatten_cons,
      List.length_append]
    simp only [totalBytes] at ih
    omega

theorem readPayload_zero (fuel : Nat) (s : List Chunk) :
    readPayload fuel 0 s = some ([], s) := by
  cases fuel <;> rfl

theorem readPayload_succ (fuel m : Nat) (s : List Chunk) :
    readPayload (fuel + 1) (m + 1) s =
      (let p := recvInto (m + 1) s
       match readPayload fuel (m + 1 - p.1.length) p.2 with
       | some q => some (p.1 ++ q.1, q.2)
       | none => none) := rfl

/-- Sufficiency half of the payload-loop analysis: when the stream holds at
least `n` more bytes, fuel `s.length + 1` completes the loop, it returns
exactly the next `n` bytes, and exactly `n` bytes are consumed. -/
theorem readPayload_complete (n : Nat) (s : List Chunk)
    (h : n ≤ s.flatten.length) :
    ∃ s2, readPayload (s.length + 1) n s = some (s.flatten.take n, s2) ∧
      s2.flatten = s.flatten.drop n := by
  induction s generalizing n with
  | nil =>
    have hn : n = 0 := by simpa using h
    subst hn
    exact ⟨[], readPayload_zero 1 [], rfl⟩
  | cons c cs ih =>
    match n with
    | 0 => exact ⟨c :: cs, readPayload_zero _ _, rfl⟩
    | m + 1 =>
      have hflat : (c :: cs).flatten = c ++ cs.flatten := List.flatten_cons ..
      rw [List.length_cons, readPayload_succ]
      simp only [recvInto]
      by_cases hc : c.length ≤ m + 1
      · simp only [hc, if_true]
        have hlen : m + 1 - c.length ≤ cs.flatten.length := by
          rw [hflat, List.length_append] at h; omega
        obtain ⟨s2, heq, hdrop⟩ := ih (m + 1 - c.length) hlen
        refine ⟨s2, ?_, ?_⟩
        · rw [heq]
          have ht : (c :: cs).flatten.take (m + 1) =
              c ++ cs.flatten.take (m + 1 - c.length) := by
            rw [hflat, List.take_append_eq_append_take,
              List.take_of_length_le hc]
          rw [ht]
        · rw [hdrop, hflat, List.drop_append_eq_append_drop,
            List.drop_eq_nil_of_le hc, List.nil_append]
      · simp only [hc, if_false]
        have hl : (c.take (m + 1)).length = m + 1 :=
          List.length_take_of_le (by omega)
        rw [hl, Nat.sub_self, readPayload_zero]
        have h0 : m + 1 - c.length = 0 := by omega
        refine ⟨c.drop (m + 1) :: cs, ?_, ?_⟩
        · have ht : (c :: cs).flatten.take (m + 1) = c.take (m + 1) := by
            rw [hflat, List.take_append_eq_append_take, h0, List.take_zero,
              List.append_nil]
          simp [ht]
          exact Or.inr (by omega)
        · rw [List.flatten_cons, hflat, List.drop_append_eq_append_drop, h0,
            List.drop_zero]

/-- Divergence half of the payload-loop analysis: when the stream holds
fewer than `n` bytes, no amount of fuel finishes the loop — the zero-byte
reads of a closed peer are not detected and the loop never terminates. -/
theorem readPayload_diverges (fuel n : Nat) (s : List Chunk)
    (h : s.flatten.length < n) : readPayload fuel n s = none := by
  induction fuel generalizing n s with
  | zero =>
    match n with
    | 0 => simp at h
    | m + 1 => rfl
  | succ k ih =>
    match n with
    | 0 => simp at h
    | m + 1 =>
      rw [readPayload_succ]
      match s with
      | [] =>
        simp only [recvInto, List.length_nil, Nat.sub_zero]
        rw [ih (m + 1) [] (by simpa using h)]
      | c :: cs =>
        have hflat : (c :: cs).flatten = c ++ cs.flatten := List.flatten_cons ..
        rw [hflat, List.length_append] at h
        simp only [recvInto]
        have hc : c.length ≤ m + 1 := by omega
        simp only [hc, if_true]
        rw [ih (m + 1 - c.length) cs (by omega)]

/-! ## Port arbiter (`__init_socket_port`, `check_port_availability`) -/

/-- Session-level socket constants of `ItsSession`. -/
def REMOTE_PORT : Nat := 6000

def CLIENT_PORT_START : Nat := 6000

def MAX_NUM_PORTS : Nat := 100

def LOCK_PORT : Nat := CLIENT_PORT_START + MAX_NUM_PORTS

def SOCK_TIMEOUT : Nat := 20

def EXTRA_SOCK_TIMEOUT : Nat := 5

/-- Retry count of the lock-bind loop in `__init_socket_port`. -/
def numRetries : Nat := 100

/-- One parsed line of `adb forward --list` output: lines that do not match
the `<device> tcp:<local> tcp:<remote>` shape are skipped by the source and
are not represented. -/
structure AdbForwardEntry where
  device : String
  localPort : Nat
  remotePort : Nat
  deriving DecidableEq, Repr

/-- The environment a port-allocation run observes: the id of this device,
the current forwarding table, whether the i-th attempt to bind `LOCK_PORT`
succeeds, and whether `adb forward` accepts a new rule on a port. -/
structure PortEnv where
  deviceId : String
  forwards : List AdbForwardEntry
  bindOk : Nat → Bool
  forwardCmdOk : Nat → Bool

/-- The scan over `adb forward --list` lines (lines 189-205): the first line
whose device and remote port match ends the scan (`break`); every other
scanned line contributes its local port to `used_ports`. -/
def scanForwards (deviceId : String) :
    List AdbForwardEntry → Option Nat × List Nat
  | [] => (none, [])
  | e :: es =>
    if e.device = deviceId ∧ e.remotePort = REMOTE_PORT then
      (some e.localPort, [])
    else
      let r := scanForwards deviceId es
      (r.1, e.localPort :: r.2)

/-- Model of `ItsSession.check_port_availability` (lines 227-249): a used
port falls off the end of the function and returns Python `None`, which the
caller treats as false. -/
def check_port_availability (env : PortEnv) (checkPort : Nat)
    (usedPorts : List Nat) : Bool :=
  decide (checkPort ∉ usedPorts) && env.forwardCmdOk checkPort

/-- The candidate-range scan of `__init_socket_port` (lines 208-213). -/
def findScanPort (env : PortEnv) (usedPorts : List Nat) : Option Nat :=
  ((List.range MAX_NUM_PORTS).map (· + CLIENT_PORT_START)).find?
    (fun p => check_port_availability env p usedPorts)

/-- Outcome of a port-allocation run, recording whether the line
`socket_lock.close()` was executed before the call finished. -/
structure InitPortOut where
  result : Except ItsError Nat
  lockClosed : Bool
  deriving Repr

/-- Model of `ItsSession.__init_socket_port` (lines 162-225).  The bind-retry
loop succeeds when any of the `numRetries` attempts binds.  When no port is
found, the `CameraItsError` raise on line 216 executes before the
`socket_lock.close()` on line 220, so the failure path finishes with the
lock socket still bound. -/
def init_socket_port (env : PortEnv) : InitPortOut :=
  if ¬ ((List.range numRetries).any env.bindOk) then
    { result := .error .lockBindFailed, lockClosed := false }
  else
    let scanned := scanForwards env.deviceId env.forwards
    let port :=
      match scanned.1 with
      | some p => some p
      | none => findScanPort env scanned.2
    match port with
    | none => { result := .error .noAvailablePort, lockClosed := false }
    | some p => { result := .ok p, lockClosed := true }

/-! ## Convergence poller (`do_3a`) -/

/-- One inbound frame of the 3A protocol: its tag and the numeric tokens of
its whitespace-split `strValue` (the `int`/`float` parsing of the tokens is
outside the claims, so tokens are carried post-parse as integers). -/
structure Frame3a where
  tag : String
  vals : List Int
  deriving DecidableEq, Repr

/-- The accumulating state of the `do_3a` receive loop (lines 1595-1600). -/
structure ThreeAState where
  ae_sens : Option Int := none
  ae_exp : Option Int := none
  awb_gains : Option (List Int) := none
  awb_transform : Option (List Int) := none
  af_dist : Option Int := none
  converged : Bool := false
  deriving DecidableEq, Repr

/-- The receive loop of `ItsSession.do_3a` (lines 1601-1618).  On `3aDone`
the loop breaks, returning the state and the frames left unread; a tag
outside the protocol set raises the invalid-response error; exhausting the
wire models a socket timeout.  An `aeResult` whose token list does not
destructure into two values raises Python `ValueError`; an `afResult` with
no token raises `IndexError` (both only when the trigger is on). -/
def do3aLoop (do_ae do_af : Bool) :
    List Frame3a → ThreeAState → Except ItsError (ThreeAState × List Frame3a)
  | [], _ => .error .socketTimeout
  | f :: fs, st =>
    if f.tag = "aeResult" then
      if do_ae then
        match f.vals with
        | [s, e] => do3aLoop do_ae do_af fs
            { st with ae_sens := some s, ae_exp := some e }
        | _ => .error .valueError
      else do3aLoop do_ae do_af fs st
    else if f.tag = "afResult" then
      if do_af then
        match f.vals.head? with
        | some d => do3aLoop do_ae do_af fs { st with af_dist := some d }
        | none => .error .indexError
      else do3aLoop do_ae do_af fs st
    else if f.tag = "awbResult" then
      do3aLoop do_ae do_af fs
        { st with awb_gains := some (f.vals.take 4),
                  awb_transform := some (f.vals.drop 4) }
    else if f.tag = "3aConverged" then
      do3aLoop do_ae do_af fs { st with converged := true }
    else if f.tag = "3aDone" then .ok (st, fs)
    else .error .invalidResponse

/-- The value `do_3a` hands back: AE sensitivity, AE exposure, AWB gains,
AWB transform, AF distance. -/
abbrev ThreeAResult :=
  Option Int × Option Int × Option (List Int) × Option (List Int) × Option Int

/-- Model of `ItsSession.do_3a` after the trigger command has been sent
(lines 1594-1625): run the receive loop over the inbound frames, then apply
the early no-results return and the post-loop validation.  The outbound
command construction (lines 1569-1592) carries no information the claims
depend on and is not modelled. -/
def do_3a (do_ae do_awb do_af get_results mono_camera : Bool)
    (frames : List Frame3a) : Except ItsError ThreeAResult :=
  match do3aLoop do_ae do_af frames {} with
  | .error e => .error e
  | .ok (st, _) =>
    if st.converged ∧ ¬ get_results then .ok (none, none, none, none, none)
    else if (do_ae ∧ st.ae_sens = none) ∨
        (¬ mono_camera ∧ do_awb ∧ st.awb_gains = none) ∨
        (do_af ∧ st.af_dist = none) ∨ ¬ st.converged then
      .error .convergenceFailed
    else .ok (st.ae_sens, st.ae_exp, st.awb_gains, st.awb_transform, st.af_dist)

/-! ## Shared capture data model

Inbound image frames carry string tags of the shape `<fmt>Image<suffix>`
(the suffix, when nonempty, is a physical camera id); the receive loops
classify them with exact matches against `IMAGE_FORMAT_LIST_1`, a
`startswith` test for `privImage`, an exact `yuvImage` match, and
`startswith` tests against `IMAGE_FORMAT_LIST_2`.  Because no `<fmt>Image`
string is a proper prefix of another, that string classification is in
bijection with the structured `(fmt, suffix)` pair, which is what `InFrame`
carries; the classifier below mirrors the string tests branch for branch on
that pair. -/

/-- An image payload. -/
abbrev Buf := List Byte

/-- A capture-result metadata object, opaque to the engine; an abstract
token suffices. -/
abbrev Md := Nat

/-- One entry of the `physicalResults` list: a mapping from physical camera
id to its metadata. -/
abbrev PhysEntry := List (String × Md)

/-- One element of the `outputs` list of a `captureResults` frame. -/
structure OutputDesc where
  oformat : String
  width : Nat
  height : Nat
  deriving DecidableEq, Repr

/-- The image formats whose tags the receive loops recognise. -/
inductive ImgFmt where
  | raw | raw10 | raw12 | rawStats | dng | jpeg | jpeg_r | y8 | yuv | priv
  deriving DecidableEq, Repr

/-- The format name, i.e. the tag with the trailing `Image` removed
(`x[:-5]`); it is the key used in the `bufs` dictionaries and in the
`formats` list. -/
def ImgFmt.key : ImgFmt → String
  | .raw => "raw"
  | .raw10 => "raw10"
  | .raw12 => "raw12"
  | .rawStats => "rawStats"
  | .dng => "dng"
  | .jpeg => "jpeg"
  | .jpeg_r => "jpeg_r"
  | .y8 => "y8"
  | .yuv => "yuv"
  | .priv => "priv"

/-- `IMAGE_FORMAT_LIST_1` as structured formats. -/
def list1 : List ImgFmt :=
  [.jpeg, .raw, .raw10, .raw12, .rawStats, .dng, .y8, .jpeg_r]

/-- `IMAGE_FORMAT_LIST_2` as structured formats. -/
def list2 : List ImgFmt :=
  [.jpeg, .raw, .raw10, .raw12, .rawStats, .yuv, .jpeg_r]

/-- One inbound frame of a capture command, already decoded by the codec. -/
inductive InFrame where
  | image (fmt : ImgFmt) (suffix : String) (buf : Option Buf)
  | captureResults (md : Md) (physical : List PhysEntry)
      (outputs : List OutputDesc)
  | other (tag : String)
  deriving DecidableEq, Repr

/-- An output-surface descriptor as the caller passes it: absent dictionary
keys are `none`. -/
structure Surface where
  sformat : Option String := none
  width : Option Nat := none
  height : Option Nat := none
  physicalCamera : Option String := none
  deriving DecidableEq, Repr

/-- The camera capabilities the engine consumes from its collaborator
`capture_request_utils.get_available_output_sizes("yuv", props)`: the
available YUV output sizes, largest first. -/
structure Props where
  yuvSizes : List (Nat × Nat)
  deriving DecidableEq, Repr

/-- The per-session identifiers and cached properties. -/
structure Sess where
  cameraId : String
  hiddenPhysicalId : Option String := none
  props : Option Props := none
  deriving DecidableEq, Repr

/-- First `physicalResults` entry holding this camera id, as scanned by
lines 1452-1455. -/
def physLookup (ps : List PhysEntry) (cam : String) : Option Md :=
  match ps.find? (fun e => (e.lookup cam).isSome) with
  | some e => e.lookup cam
  | none => none

/-- Python substring membership `needle in haystack` on strings. -/
def strInfix (needle hay : String) : Bool :=
  hay.toList.tails.any needle.toList.isPrefixOf

/-- Append one stored buffer under a string key. -/
def updateStore (f : String → List (Option Buf)) (key : String)
    (b : Option Buf) : String → List (Option Buf) :=
  fun k => if k = key then f k ++ [b] else f k

/-! ## `do_simple_capture` -/

/-- Keys of the per-camera `bufs` dictionary built by `do_simple_capture`
(lines 897-905); unlike `do_capture`, it has no `jpeg_r` entry. -/
def simpleBufsFormats : List String :=
  ["raw", "raw10", "raw12", "rawStats", "dng", "jpeg", "y8"]

/-- The mutable locals of the `do_simple_capture` receive loop (lines
940-945), plus its two buffer dictionaries.  `bufsStore` is the single-key
`bufs[cam_id]` dictionary; `yuvStore` the single bucket of
`yuv_bufs[cam_id]` (the bucket key itself is threaded separately).  `fmt`
starts as the requested format and is reassigned by the image branches. -/
structure SimpleState where
  bufsStore : String → List (Option Buf)
  yuvStore : List (Option Buf)
  nbufs : Nat
  md : Option Md := none
  physicalMd : Option (List PhysEntry) := none
  width : Option Nat := none
  height : Option Nat := none
  fmt : String
  captureResultsReturned : Bool := false

/-- One iteration body of the `do_simple_capture` receive loop (lines
946-993).  `camId` is the single key of `bufs`; `yuvKey` is the single
`(camera, bucket)` key of `yuv_bufs` when one exists.  In the fallthrough
branch the test `physical_id in cam_ids` is a Python substring test,
because `cam_ids` is the camera-id string there (line 936). -/
def processSimpleFrame (primary camId : String) (yuvKey : Option (String × Nat))
    (surface : Surface) (st : SimpleState) :
    InFrame → Except ItsError SimpleState
  | .captureResults m phys outs =>
    let st2 := { st with captureResultsReturned := true, md := some m,
                         physicalMd := some phys }
    match outs.head? with
    | none => .error .indexError
    | some o =>
      if st.fmt ≠ o.oformat then .error .incorrectFormat
      else
        match surface.width, surface.height with
        | some rw, some rh =>
          if rw ≠ o.width ∨ rh ≠ o.height then .error .incorrectSize
          else .ok { st2 with width := some o.width, height := some o.height }
        | _, _ => .error .keyError
  | .other _ => .ok st
  | .image ifmt sfx buf =>
    if ifmt ∈ list1 ∧ sfx = "" ∧ buf.isSome then
      let newFmt := ifmt.key
      if primary = camId ∧ newFmt ∈ simpleBufsFormats then
        .ok { st with fmt := newFmt,
                      bufsStore := updateStore st.bufsStore newFmt buf,
                      nbufs := st.nbufs + 1 }
      else .error .keyError
    else if ifmt = .yuv ∧ sfx = "" then
      match buf with
      | none => .error .attributeError
      | some b =>
        if yuvKey = some (primary, b.length) then
          .ok { st with yuvStore := st.yuvStore ++ [some b],
                        nbufs := st.nbufs + 1 }
        else .error .keyError
    else if ifmt ∈ list2 then
      if ifmt = .yuv then
        if strInfix sfx primary then
          match buf with
          | none => .error .attributeError
          | some b =>
            if yuvKey = some (sfx, b.length) then
              .ok { st with yuvStore := st.yuvStore ++ [some b],
                            nbufs := st.nbufs + 1 }
            else .error .keyError
        else .ok st
      else
        if strInfix sfx primary then
          let newFmt := ifmt.key
          if sfx = camId ∧ newFmt ∈ simpleBufsFormats then
            .ok { st with fmt := newFmt,
                          bufsStore := updateStore st.bufsStore newFmt buf,
                          nbufs := st.nbufs + 1 }
          else .error .keyError
        else .ok st
    else .ok st

/-- The `do_simple_capture` receive loop: `while (nbufs < ncap) or (not
capture_results_returned)` with `ncap = 1`; an exhausted wire models a
socket timeout. -/
def simpleLoop (primary camId : String) (yuvKey : Option (String × Nat))
    (surface : Surface) :
    List InFrame → SimpleState → Except ItsError (SimpleState × List InFrame)
  | wire, st =>
    if 1 ≤ st.nbufs ∧ st.captureResultsReturned then .ok (st, wire)
    else
      match wire with
      | [] => .error .socketTimeout
      | f :: fs =>
        match processSimpleFrame primary camId yuvKey surface st f with
        | .error e => .error e
        | .ok st2 => simpleLoop primary camId yuvKey surface fs st2

/-- The dictionary `do_simple_capture` returns (lines 999-1012). -/
structure SimpleRet where
  width : Option Nat
  height : Option Nat
  rformat : String
  metadata : Option Md
  data : Option Buf
  deriving DecidableEq, Repr

/-- The result assembly of `do_simple_capture` (lines 995-1012).  On the
physical-camera path the test `cam_id in physical_md` compares the id
string against the dictionaries of the `physicalResults` list and never
holds, so no metadata is attached there. -/
def simpleAssemble (primary camId : String) (yuvKey : Option (String × Nat))
    (st : SimpleState) : Except ItsError SimpleRet :=
  let metadata : Option Md := if camId = primary then st.md else none
  if st.fmt = "yuv" then
    match st.width, st.height with
    | some w, some h =>
      let bsize := (w * h * 3) / 2
      if yuvKey = some (camId, bsize) then
        match st.yuvStore.head? with
        | some el => .ok { width := st.width, height := st.height,
                           rformat := st.fmt, metadata, data := el }
        | none => .error .indexError
      else .error .keyError
    | _, _ => .error .typeError
  else
    if st.fmt ∈ simpleBufsFormats then
      match (st.bufsStore st.fmt).head? with
      | some el => .ok { width := st.width, height := st.height,
                         rformat := st.fmt, metadata, data := el }
      | none => .error .indexError
    else .error .keyError

/-- Outcome record of a `do_simple_capture` call: its result, whether the
command was sent, and the socket timeout left installed afterwards. -/
structure SimpleOut where
  result : Except ItsError SimpleRet
  sent : Bool
  finalTimeout : Nat
  rest : List InFrame
  deriving Repr

/-- The pre-send phase of `do_simple_capture` (lines 880-934): requested
format with the `jpg` alias resolved, hidden-physical override, camera id,
YUV surface selection (which reads `out_surface["format"]` unguarded), and
the single YUV bucket.  Returns the surface after override, the camera id,
the requested format, and the optional `(camera, bucket)` YUV key. -/
def simplePrepare (sess : Sess) (outSurface : Surface) :
    Except ItsError (Surface × String × String × Option (String × Nat)) :=
  let fmt0 :=
    let f := outSurface.sformat.getD "yuv"
    if f = "jpg" then "jpeg" else f
  let surface :=
    match sess.hiddenPhysicalId with
    | some h => { outSurface with physicalCamera := some h }
    | none => outSurface
  let camId := surface.physicalCamera.getD sess.cameraId
  let yuvSurfE : Except ItsError (Option Surface) :=
    if camId = sess.cameraId then
      if surface.physicalCamera = none then
        match surface.sformat with
        | none => .error .keyError
        | some f => .ok (if f = "yuv" then some surface else none)
      else .ok none
    else
      if surface.physicalCamera = some camId then
        match surface.sformat with
        | none => .error .keyError
        | some f => .ok (if f = "yuv" then some surface else none)
      else .ok none
  match yuvSurfE with
  | .error e => .error e
  | .ok none => .ok (surface, camId, fmt0, none)
  | .ok (some ys) =>
    let maxszE : Except ItsError Nat :=
      if ys.width = none ∧ ys.height = none then
        match sess.props with
        | none => .error .propsUnavailable
        | some pr =>
          match pr.yuvSizes.head? with
          | none => .error .indexError
          | some q => .ok ((q.1 * q.2 * 3) / 2)
      else .ok 0
    match maxszE with
    | .error e => .error e
    | .ok maxsz =>
      let ysize :=
        match ys.width, ys.height with
        | some w, some h => (w * h * 3) / 2
        | _, _ => maxsz
      .ok (surface, camId, fmt0, some (camId, ysize))

/-- Model of `ItsSession.do_simple_capture` (lines 866-1012).  `t0` is the
socket timeout installed when the call starts.  The timeout is widened to
`SOCK_TIMEOUT + EXTRA_SOCK_TIMEOUT` just before the command is sent (line
937) and the function contains no statement restoring it, so every path
that reaches the send finishes with the widened timeout installed. -/
def do_simple_capture (sess : Sess) (outSurface : Surface) (t0 : Nat)
    (wire : List InFrame) : SimpleOut :=
  match simplePrepare sess outSurface with
  | .error e => { result := .error e, sent := false, finalTimeout := t0,
                  rest := wire }
  | .ok (surface, camId, fmt0, yuvKey) =>
    let ext := SOCK_TIMEOUT + EXTRA_SOCK_TIMEOUT
    let st0 : SimpleState :=
      { bufsStore := fun _ => [], yuvStore := [], nbufs := 0, fmt := fmt0 }
    match simpleLoop sess.cameraId camId yuvKey surface wire st0 with
    | .error e => { result := .error e, sent := true, finalTimeout := ext,
                    rest := [] }
    | .ok (st, rest) =>
      match simpleAssemble sess.cameraId camId yuvKey st with
      | .error e => { result := .error e, sent := true, finalTimeout := ext,
                      rest }
      | .ok ret => { result := .ok ret, sent := true, finalTimeout := ext,
                     rest }

/-! ## `do_capture`: command build and validation -/

/-- One capture request; the engine itself only reads the declared exposure
time (`android.sensor.exposureTime`, in nanoseconds). -/
structure CapReq where
  exposureTimeNs : Option Nat := none
  deriving DecidableEq, Repr

/-- `cap_request` argument: a single request object or a burst list. -/
inductive ReqArg where
  | single (r : CapReq)
  | listOf (rs : List CapReq)
  deriving DecidableEq, Repr

/-- `cmd["captureRequests"]` (lines 1258-1261). -/
def ReqArg.toList : ReqArg → List CapReq
  | .single r => [r]
  | .listOf rs => rs

/-- `isinstance(cap_request, list)`. -/
def ReqArg.isList : ReqArg → Bool
  | .single _ => false
  | .listOf _ => true

/-- `out_surfaces` argument: omitted, a single surface, or a list. -/
inductive SurfArg where
  | noneGiven
  | single (s : Surface)
  | listOf (ss : List Surface)
  deriving DecidableEq, Repr

/-- `repeat_request` argument. -/
inductive RepeatArg where
  | noneGiven
  | single (r : CapReq)
  | listOf (rs : List CapReq)
  deriving DecidableEq, Repr

/-- `repeat_request is None`. -/
def RepeatArg.isNone : RepeatArg → Bool
  | .noneGiven => true
  | _ => false

/-- Python truthiness of the `repeat_request` argument as tested on line
1378: `None` and the empty list are falsy (a single request object is a
nonempty dictionary and is truthy). -/
def RepeatArg.truthy : RepeatArg → Bool
  | .noneGiven => false
  | .single _ => true
  | .listOf rs => ¬ rs.isEmpty

/-- `SEC_TO_NSEC`: the float 1e9, integral valued. -/
def SEC_TO_NSEC : Nat := 1000000000

/-- The per-surface `formats` list (lines 1268-1271): the format of each
surface with default `yuv` and the `jpg` alias resolved. -/
def fmtsOf (surfaces : List Surface) : List String :=
  (surfaces.map (fun s => s.sformat.getD "yuv")).map
    (fun f => if f = "jpg" then "jpeg" else f)

/-- `cam_ids` (lines 1285-1298): camera ids of the surfaces in request
order, without repetition. -/
def camIdList (primary : String) (surfaces : List Surface) : List String :=
  surfaces.foldl
    (fun acc s =>
      let c := s.physicalCamera.getD primary
      if c ∈ acc then acc else acc ++ [c]) []

/-- Python `len(set(l))`. -/
def setCard [DecidableEq α] (l : List α) : Nat := l.toFinset.card

/-- `yuv_surfaces` and `formats_for_id` for one camera id (lines
1310-1331).  Both comprehensions evaluate `s["format"]` for every surface,
so any surface without a format key raises `KeyError` here. -/
def camSurfaceData (primary cam : String) (surfaces : List Surface) :
    Except ItsError (List Surface × List String) :=
  if surfaces.any (fun s => s.sformat = none) then .error .keyError
  else if cam = primary then
    .ok (surfaces.filter (fun s =>
           s.sformat = some "yuv" ∧ s.physicalCamera = none),
         (surfaces.filter (fun s => s.physicalCamera = none)).map
           (fun s => s.sformat.getD ""))
  else
    .ok (surfaces.filter (fun s =>
           s.sformat = some "yuv" ∧ s.physicalCamera = some cam),
         (surfaces.filter (fun s => s.physicalCamera = some cam)).map
           (fun s => s.sformat.getD ""))

/-- `yuv_maxsize_1d` (lines 1334-1344): computed from the camera
capabilities only when some YUV surface of this camera omits both
dimensions, and 0 otherwise. -/
def yuvMaxsize1d (props : Option Props) (yuvSurfaces : List Surface) :
    Except ItsError Nat :=
  match yuvSurfaces.find? (fun s => s.width = none ∧ s.height = none) with
  | none => .ok 0
  | some _ =>
    match props with
    | none => .error .propsUnavailable
    | some pr =>
      match pr.yuvSizes.head? with
      | none => .error .indexError
      | some q => .ok ((q.1 * q.2 * 3) / 2)

/-- `yuv_sizes` (lines 1345-1349): explicit surfaces resolve to
`w*h*3//2`, all others to the maximum size. -/
def yuvSizesList (maxsz : Nat) (yuvSurfaces : List Surface) : List Nat :=
  yuvSurfaces.map (fun s =>
    match s.width, s.height with
    | some w, some h => (w * h * 3) / 2
    | _, _ => maxsz)

/-- The per-camera validation body (lines 1333-1359): the same-buffer-size
check on the YUV buckets, then the duplicate-format check, then the bucket
list that seeds `yuv_bufs[cam_id]`. -/
def camCheck (primary cam : String) (props : Option Props)
    (surfaces : List Surface) : Except ItsError (List Nat) :=
  match camSurfaceData primary cam surfaces with
  | .error e => .error e
  | .ok d =>
    match yuvMaxsize1d props d.1 with
    | .error e => .error e
    | .ok maxsz =>
      let sizes := yuvSizesList maxsz d.1
      if sizes.length ≠ setCard sizes then .error .yuvSameSize
      else
        let ffi := d.2
        if setCard ffi < ffi.length ∧
            d.1.length ≠ ffi.length - setCard ffi + 1 then
          .error .duplicateFormat
        else .ok sizes

/-- The `for cam_id in cam_ids` validation loop, producing the bucket keys
of `yuv_bufs` for each camera. -/
def validateCams (primary : String) (props : Option Props)
    (surfaces : List Surface) :
    List String → Except ItsError (List (String × List Nat))
  | [] => .ok []
  | cam :: rest =>
    match camCheck primary cam props surfaces with
    | .error e => .error e
    | .ok sizes =>
      match validateCams primary props surfaces rest with
      | .error e => .error e
      | .ok tail => .ok ((cam, sizes) :: tail)

/-- `raw_formats` (lines 1361-1366). -/
def rawFormatCount (formats : List String) : Nat :=
  (if "dng" ∈ formats then 1 else 0) +
  (if "raw" ∈ formats then 1 else 0) +
  (if "raw10" ∈ formats then 1 else 0) +
  (if "raw12" ∈ formats then 1 else 0) +
  (if "rawStats" ∈ formats then 1 else 0)

/-- `longest_exp_time` (lines 1371-1375). -/
def longestExpTime (reqs : List CapReq) : Nat :=
  reqs.foldl
    (fun acc r =>
      match r.exposureTimeNs with
      | some e => if acc < e then e else acc
      | none => acc) 0

/-- Everything `do_capture` has derived from its arguments by the time the
command is sent (line 1385). -/
structure CmdInfo where
  surfaces : List Surface
  formats : List String
  ncap : Nat
  nsurf : Nat
  camIds : List String
  buckets : List (String × List Nat)
  extTimeout : Nat
  deriving DecidableEq, Repr

/-- The command-building and validation phase of `do_capture` (lines
1241-1380), everything preceding the `self.sock.send` on line 1385.  An
error here means the send is never reached. -/
def buildCmd (sess : Sess) (capRequest : ReqArg) (outSurfaces : SurfArg)
    (reprocessFormat : Option String) (repeatRequest : RepeatArg) :
    Except ItsError CmdInfo :=
  if reprocessFormat.isSome ∧ ¬ repeatRequest.isNone then
    .error .reprocessWithRepeat
  else
    let capReqs := capRequest.toList
    let surfFmtE : Except ItsError (List Surface × List String × Nat) :=
      match outSurfaces with
      | .noneGiven =>
        match sess.props with
        | none => .error .propsUnavailable
        | some pr =>
          match pr.yuvSizes.head? with
          | none => .error .indexError
          | some q =>
            .ok ([{ sformat := some "yuv", width := some q.1,
                    height := some q.2 }], ["yuv"], 1)
      | .single s => .ok ([s], fmtsOf [s], 1)
      | .listOf ss => .ok (ss, fmtsOf ss, ss.length)
    match surfFmtE with
    | .error e => .error e
    | .ok (ss0, formats, nsurf) =>
      let ss := ss0.map (fun s =>
        match sess.hiddenPhysicalId with
        | some h => { s with physicalCamera := some h }
        | none => s)
      let camIds := camIdList sess.cameraId ss
      match validateCams sess.cameraId sess.props ss camIds with
      | .error e => .error e
      | .ok buckets =>
        if 1 < rawFormatCount formats then .error .differentRawFormats
        else
          let ext := longestExpTime capReqs / SEC_TO_NSEC + SOCK_TIMEOUT +
            (if repeatRequest.truthy then EXTRA_SOCK_TIMEOUT else 0)
          .ok { surfaces := ss, formats, ncap := capReqs.length, nsurf,
                camIds, buckets, extTimeout := ext }

/-! ## `do_capture`: receive loop and demultiplexer -/

/-- Keys of each per-camera `bufs` dictionary in `do_capture` (lines
1299-1308). -/
def bufsFormats8 : List String :=
  ["raw", "raw10", "raw12", "rawStats", "dng", "jpeg", "jpeg_r", "y8"]

/-- The mutable locals of the `do_capture` receive loop (lines 1391-1395)
together with the two buffer dictionaries.  `bufs` maps camera id and
format key to the ordered arrivals; `yuvBufs` maps camera id and bucket
size likewise. -/
structure RxState where
  bufs : String → String → List (Option Buf)
  yuvBufs : String → Nat → List (Option Buf)
  nbufs : Nat
  mds : List Md
  physicalMds : List (List PhysEntry)
  widths : Option (List Nat)
  heights : Option (List Nat)

/-- The empty receive state. -/
def initRxState : RxState :=
  { bufs := fun _ _ => [], yuvBufs := fun _ _ => [], nbufs := 0, mds := [],
    physicalMds := [], widths := none, heights := none }

/-- Whether `yuv_bufs[cam][n]` is a key of the bucket dictionaries built by
the validation loop (it is not exactly when Python would raise
`KeyError`). -/
def bucketDefined (buckets : List (String × List Nat)) (cam : String)
    (n : Nat) : Bool :=
  match buckets.lookup cam with
  | some sizes => n ∈ sizes
  | none => false

/-- Append an arrival to `bufs[cam][key]`. -/
def appendBufs (f : String → String → List (Option Buf)) (cam key : String)
    (b : Option Buf) : String → String → List (Option Buf) :=
  fun c g => if c = cam ∧ g = key then f c g ++ [b] else f c g

/-- Append an arrival to `yuv_bufs[cam][n]`. -/
def appendYuv (f : String → Nat → List (Option Buf)) (cam : String) (n : Nat)
    (b : Option Buf) : String → Nat → List (Option Buf) :=
  fun c m => if c = cam ∧ m = n then f c m ++ [b] else f c m

/-- One iteration body of the `do_capture` receive loop (lines 1397-1435),
branch for branch:  exact `IMAGE_FORMAT_LIST_1` tags with a payload go to
`bufs[self._camera_id]`; `privImage...` tags are only counted; an exact
`yuvImage` tag is bucketed by payload size under the primary camera;
`captureResults` records metadata and the declared output sizes; remaining
tags are matched against `IMAGE_FORMAT_LIST_2` prefixes, the suffix being a
physical camera id that must be listed in `cam_ids` (otherwise the frame is
dropped and not counted). -/
def processFrame (primary : String) (camIds : List String)
    (buckets : List (String × List Nat)) (st : RxState) :
    InFrame → Except ItsError RxState
  | .captureResults m phys outs =>
    .ok { st with mds := st.mds ++ [m],
                  physicalMds := st.physicalMds ++ [phys],
                  widths := some (outs.map (·.width)),
                  heights := some (outs.map (·.height)) }
  | .other _ => .ok st
  | .image ifmt sfx buf =>
    if ifmt ∈ list1 ∧ sfx = "" ∧ buf.isSome then
      if primary ∈ camIds then
        .ok { st with bufs := appendBufs st.bufs primary ifmt.key buf,
                      nbufs := st.nbufs + 1 }
      else .error .keyError
    else if ifmt = .priv then .ok { st with nbufs := st.nbufs + 1 }
    else if ifmt = .yuv ∧ sfx = "" then
      match buf with
      | none => .error .attributeError
      | some b =>
        if bucketDefined buckets primary b.length then
          .ok { st with
                yuvBufs := appendYuv st.yuvBufs primary b.length (some b),
                nbufs := st.nbufs + 1 }
        else .error .keyError
    else if ifmt ∈ list2 then
      if ifmt = .yuv then
        if sfx ∈ camIds then
          match buf with
          | none => .error .attributeError
          | some b =>
            if bucketDefined buckets sfx b.length then
              .ok { st with
                    yuvBufs := appendYuv st.yuvBufs sfx b.length (some b),
                    nbufs := st.nbufs + 1 }
            else .error .keyError
        else .ok st
      else
        if sfx ∈ camIds then
          .ok { st with bufs := appendBufs st.bufs sfx ifmt.key buf,
                        nbufs := st.nbufs + 1 }
        else .ok st
    else .ok st

/-- The `do_capture` receive loop (line 1396): `while nbufs < ncap*nsurf or
len(mds) < ncap`; an exhausted wire models a socket timeout. -/
def rxLoop (primary : String) (camIds : List String)
    (buckets : List (String × List Nat)) (target ncap : Nat) :
    List InFrame → RxState → Except ItsError (RxState × List InFrame)
  | wire, st =>
    if target ≤ st.nbufs ∧ ncap ≤ st.mds.length then .ok (st, wire)
    else
      match wire with
      | [] => .error .socketTimeout
      | f :: fs =>
        match processFrame primary camIds buckets st f with
        | .error e => .error e
        | .ok st2 => rxLoop primary camIds buckets target ncap fs st2

/-- One element of the value `do_capture` returns per surface and capture
(lines 1444-1462).  `data = none` is an absent `data` key (private-format
surfaces); `data = some el` carries the stored arrival, which the Python
code would itself store as `None` in one degenerate branch, hence the inner
option. -/
structure CapResult where
  width : Nat
  height : Nat
  rformat : String
  metadata : Option Md
  data : Option (Option Buf)
  deriving DecidableEq, Repr

/-- The body of the reassembly loops for surface `j` and capture `i`
(lines 1444-1462): reported width and height, the capture metadata
(physical metadata when the surface targets a physical camera; absent when
that id is missing from the capture entry), and the next buffer popped from
the surface stream. -/
def assembleCell (primary : String) (camIds : List String)
    (buckets : List (String × List Nat)) (surfaces : List Surface)
    (formats : List String) (st : RxState) (j i : Nat) :
    Except ItsError CapResult :=
  match st.widths, st.heights with
  | some ws, some hs =>
    match ws.get? j, hs.get? j, surfaces.get? j, formats.get? j with
    | some w, some h, some s, some fmt =>
      let camId := s.physicalCamera.getD primary
      let mdE : Except ItsError (Option Md) :=
        if camId = primary then
          match st.mds.get? i with
          | some m => .ok (some m)
          | none => .error .indexError
        else
          match st.physicalMds.get? i with
          | some ps => .ok (physLookup ps camId)
          | none => .error .indexError
      match mdE with
      | .error e => .error e
      | .ok md =>
        if fmt = "yuv" then
          let bsize := (w * h * 3) / 2
          if bucketDefined buckets camId bsize then
            match (st.yuvBufs camId bsize).get? i with
            | some el => .ok { width := w, height := h, rformat := fmt,
                               metadata := md, data := some el }
            | none => .error .indexError
          else .error .keyError
        else if fmt ≠ "priv" then
          if camId ∈ camIds ∧ fmt ∈ bufsFormats8 then
            match (st.bufs camId fmt).get? i with
            | some el => .ok { width := w, height := h, rformat := fmt,
                               metadata := md, data := some el }
            | none => .error .indexError
          else .error .keyError
        else .ok { width := w, height := h, rformat := fmt, metadata := md,
                   data := none }
    | _, _, _, _ => .error .indexError
  | _, _ => .error .typeError

/-- The full reassembly (lines 1436-1462), one result per surface per
capture, in request order then burst order. -/
def assembleAll (primary : String) (camIds : List String)
    (buckets : List (String × List Nat)) (surfaces : List Surface)
    (formats : List String) (ncap : Nat) (st : RxState) :
    Except ItsError (List (List CapResult)) :=
  (List.range formats.length).mapM (fun j =>
    (List.range ncap).mapM (fun i =>
      assembleCell primary camIds buckets surfaces formats st j i))

/-- The Python value shape `do_capture` hands back: a result dictionary or
a (possibly nested) list of them. -/
inductive PyVal where
  | obj (r : CapResult)
  | list (vs : List PyVal)

/-- `isinstance(v, dict)`. -/
def PyVal.isObj : PyVal → Bool
  | .obj _ => true
  | .list _ => false

/-- The result-shaping epilogue (lines 1436-1469 minus the cell contents):
per surface, a list over the burst when `ncap > 1` and the single result
otherwise; then the whole list is returned when there are several surfaces
or when a single dictionary result came from a list-typed
`cap_request`. -/
def shapeRets (ncap : Nat) (capReqIsList : Bool)
    (matrix : List (List CapResult)) : Except ItsError PyVal :=
  match matrix.mapM (fun objs =>
      if 1 < ncap then Except.ok (PyVal.list (objs.map PyVal.obj))
      else
        match objs.head? with
        | some o => Except.ok (PyVal.obj o)
        | none => Except.error ItsError.indexError) with
  | .error e => .error e
  | .ok rets =>
    if 1 < rets.length then .ok (.list rets)
    else
      match rets.head? with
      | none => .error .indexError
      | some r0 =>
        if r0.isObj ∧ capReqIsList then .ok (.list rets) else .ok r0

/-- The receive-and-demultiplex core of `do_capture` given a validated
command: the final per-surface per-capture result matrix and the frames
left unread on the wire. -/
def do_capture_results (sess : Sess) (info : CmdInfo) (wire : List InFrame) :
    Except ItsError (List (List CapResult) × List InFrame) :=
  match rxLoop sess.cameraId info.camIds info.buckets
      (info.ncap * info.nsurf) info.ncap wire initRxState with
  | .error e => .error e
  | .ok (st, rest) =>
    match assembleAll sess.cameraId info.camIds info.buckets info.surfaces
        info.formats info.ncap st with
    | .error e => .error e
    | .ok matrix => .ok (matrix, rest)

/-- Outcome record of a `do_capture` call: its result, whether the command
was sent, the timeout installed at send time, and the timeout left
installed when the call finishes. -/
structure DoCapOut where
  result : Except ItsError PyVal
  sent : Bool
  sendTimeout : Option Nat
  finalTimeout : Nat
  rest : List InFrame

/-- Model of `ItsSession.do_capture` (lines 1089-1469).  `t0` is the socket
timeout installed when the call starts.  Validation errors happen before
the send; the extended timeout is installed just before the send (line
1380) and `settimeout(self.SOCK_TIMEOUT)` runs only after a successful
reassembly (line 1464), so failing receive or reassembly paths finish with
the extended timeout still installed. -/
def do_capture (sess : Sess) (capRequest : ReqArg) (outSurfaces : SurfArg)
    (reprocessFormat : Option String) (repeatRequest : RepeatArg)
    (t0 : Nat) (wire : List InFrame) : DoCapOut :=
  match buildCmd sess capRequest outSurfaces reprocessFormat repeatRequest with
  | .error e => { result := .error e, sent := false, sendTimeout := none,
                  finalTimeout := t0, rest := wire }
  | .ok info =>
    match do_capture_results sess info wire with
    | .error e => { result := .error e, sent := true,
                    sendTimeout := some info.extTimeout,
                    finalTimeout := info.extTimeout, rest := [] }
    | .ok (matrix, rest) =>
      match shapeRets info.ncap capRequest.isList matrix with
      | .error e => { result := .error e, sent := true,
                      sendTimeout := some info.extTimeout,
                      finalTimeout := SOCK_TIMEOUT, rest }
      | .ok v => { result := .ok v, sent := true,
                   sendTimeout := some info.extTimeout,
                   finalTimeout := SOCK_TIMEOUT, rest }

/-! ## Claim C8: frames with no declared payload -/

/-- C8: for every inbound frame whose JSON line declares no `bufValueSize`
field, `__read_response_from_socket` returns with no payload bytes read (a
zero-length payload) and the stream is left exactly where the terminating
newline ended — no further socket reads happen. -/
theorem claim_C8 (parse : List Byte → RespFrame) (fuel : Nat)
    (s s1 : List Chunk) (line : List Byte)
    (hline : readLineAux s [] = .ok (line, s1))
    (hnone : (parse line).bufValueSize = none) :
    read_response_from_socket parse fuel s =
      some (.ok (parse line, none, s1)) := by
  unfold read_response_from_socket
  rw [hline]
  simp [hnone]

theorem readLineAux_closed (s : List Chunk) (acc : List Byte)
    (hg : ¬ (acc ≠ [] ∧ acc.getLast? = some newlineByte))
    (hr : recv1 s = none) : readLineAux s acc = .error .channelClosed := by
  rw [readLineAux, if_neg hg]
  split
  · rfl
  · next p heq => rw [hr] at heq; cases heq

theorem readLineAux_progress (s : List Chunk) (acc : List Byte)
    (hg : ¬ (acc ≠ [] ∧ acc.getLast? = some newlineByte)) (b : Byte)
    (s2 : List Chunk) (hr : recv1 s = some (b, s2)) :
    readLineAux s acc = readLineAux s2 (acc ++ [b]) := by
  rw [readLineAux, if_neg hg]
  split
  · next heq => rw [hr] at heq; cases heq
  · next p heq =>
    rw [hr] at heq
    cases heq
    rfl

theorem readLineAux_done (s : List Chunk) (acc : List Byte)
    (hg : acc ≠ [] ∧ acc.getLast? = some newlineByte) :
    readLineAux s acc = .ok (acc, s) := by
  rw [readLineAux]
  rw [if_pos hg]

/-- Witness for C8 at a concrete one-line stream. -/
theorem claim_C8_witness :
    read_response_from_socket (fun _ => { tag := "ok" }) 0 [[10]] =
      some (.ok ({ tag := "ok" }, none, [])) := by
  have hline : readLineAux [[10]] [] = .ok ([10], []) := by
    rw [readLineAux_progress [[10]] [] (by simp) 10 [] rfl]
    rw [readLineAux_done _ _ (by simp [newlineByte])]
    rfl
  exact claim_C8 (fun _ => { tag := "ok" }) 0 [[10]] [] [10] hline rfl

/-! ## Claim C9: totality of the payload loop -/

/-- C9: the payload-reading loop of `__read_response_from_socket` is total
exactly when the stream supplies at least `n` further bytes, in which case
it consumes exactly `n` bytes and returns a buffer of length `n`; on a
short stream (a peer close mid-payload makes every further read return zero
bytes) no fuel bound terminates the loop and no channel-closed error is
raised; only the line-reading phase raises on an empty read. -/
theorem claim_C9 :
    (∀ (n : Nat) (s : List Chunk), n ≤ s.flatten.length →
      ∃ s2, readPayload (s.length + 1) n s = some (s.flatten.take n, s2) ∧
        (s.flatten.take n).length = n ∧ s2.flatten = s.flatten.drop n) ∧
    (∀ (fuel n : Nat) (s : List Chunk), s.flatten.length < n →
      readPayload fuel n s = none) ∧
    (∀ (s : List Chunk) (acc : List Byte), recv1 s = none →
      ¬ (acc ≠ [] ∧ acc.getLast? = some newlineByte) →
      readLineAux s acc = .error .channelClosed) := by
  refine ⟨?_, ?_, ?_⟩
  · intro n s h
    obtain ⟨s2, h1, h2⟩ := readPayload_complete n s h
    exact ⟨s2, h1, List.length_take_of_le h, h2⟩
  · intro fuel n s h
    exact readPayload_diverges fuel n s h
  · intro s acc h hg
    exact readLineAux_closed s acc hg h

/-- Witness for C9 at concrete streams. -/
theorem claim_C9_witness :
    (∃ s2, readPayload 3 2 [[1], [2, 3]] = some ([1, 2], s2) ∧
      ([1, 2] : List Byte).length = 2 ∧ s2.flatten = [3]) ∧
    readPayload 5 4 [[1]] = none ∧
    readLineAux [] [] = .error .channelClosed := by
  refine ⟨?_, ?_, ?_⟩
  · have h := claim_C9.1 2 [[1], [2, 3]] (by decide)
    simpa using h
  · exact claim_C9.2.1 5 4 [[1]] (by decide)
  · exact claim_C9.2.2 [] [] rfl (by simp)

/-! ## Claim C5: lock release in port allocation -/

/-- An environment in which the lock bind succeeds but no port can be
allocated: nothing is forwarded yet and `adb forward` rejects every
candidate. -/
def portEnvStuck : PortEnv :=
  { deviceId := "d", forwards := [], bindOk := fun _ => true,
    forwardCmdOk := fun _ => false }

/-- An environment in which the device already has a forwarded port. -/
def portEnvOk : PortEnv :=
  { deviceId := "d",
    forwards := [⟨"d", 6005, 6000⟩],
    bindOk := fun _ => true,
    forwardCmdOk := fun _ => true }

/-- Counterexample to C5: a run that binds the lock and then finds no
available port raises the allocation error with the lock socket still
open — `socket_lock.close()` on line 220 is never reached because the raise
on line 216 comes first. -/
theorem claim_C5_counterexample :
    (init_socket_port portEnvStuck).result = .error .noAvailablePort ∧
    (init_socket_port portEnvStuck).lockClosed = false := by
  constructor <;> rfl

/-- C5 as amended: a port-allocation run that binds the lock releases it on
the success path, but on the no-available-port failure path the allocation
error is raised with the lock still held. -/
theorem claim_C5 (env : PortEnv) :
    (∀ p, (init_socket_port env).result = .ok p →
      (init_socket_port env).lockClosed = true) ∧
    ((init_socket_port env).result = .error .noAvailablePort →
      (init_socket_port env).lockClosed = false) := by
  simp only [init_socket_port]
  split
  · exact ⟨fun p hp => by simp at hp, fun hp => by simp at hp⟩
  · split
    · exact ⟨fun p hp => by simp at hp, fun _ => rfl⟩
    · exact ⟨fun _ _ => rfl, fun hp => by simp at hp⟩

/-- Witness for C5 at a concrete successful allocation. -/
theorem claim_C5_witness :
    (init_socket_port portEnvOk).result = .ok 6005 ∧
    (init_socket_port portEnvOk).lockClosed = true := by
  have hres : (init_socket_port portEnvOk).result = .ok 6005 := by rfl
  exact ⟨hres, (claim_C5 portEnvOk).1 6005 hres⟩

/-! ## Claims C3 and C10: the 3A convergence poller -/

/-- A well-formed non-terminal 3A frame: one of the three result tags, with
a payload the enabled triggers can destructure. -/
def validPre (do_ae do_af : Bool) (f : Frame3a) : Prop :=
  (f.tag = "aeResult" ∧ (do_ae = true → ∃ a b, f.vals = [a, b])) ∨
  (f.tag = "afResult" ∧ (do_af = true → f.vals ≠ [])) ∨
  f.tag = "awbResult"

theorem do3aLoop_pre (do_ae do_af : Bool) (pre : List Frame3a)
    (st : ThreeAState) (hpre : ∀ f ∈ pre, validPre do_ae do_af f)
    (rest : List Frame3a) :
    ∃ st2, do3aLoop do_ae do_af (pre ++ rest) st =
      do3aLoop do_ae do_af rest st2 ∧ st2.converged = st.converged := by
  induction pre generalizing st with
  | nil => exact ⟨st, rfl, rfl⟩
  | cons f pre ih =>
    have hf := hpre f (by simp)
    have hrest : ∀ g ∈ pre, validPre do_ae do_af g :=
      fun g hg => hpre g (by simp [hg])
    rcases hf with ⟨htag, hvals⟩ | ⟨htag, hvals⟩ | htag
    · rw [List.cons_append]
      cases do_ae with
      | true =>
        obtain ⟨a, b, hv⟩ := hvals rfl
        simp only [do3aLoop, htag, hv, reduceIte, if_true]
        exact ih { st with ae_sens := some a, ae_exp := some b } hrest
      | false =>
        simp only [do3aLoop, htag, reduceIte, Bool.false_eq_true, if_false]
        exact ih st hrest
    · rw [List.cons_append]
      cases do_af with
      | true =>
        have hv := hvals rfl
        obtain ⟨d, ds, hval⟩ : ∃ d ds, f.vals = d :: ds := by
          cases hval2 : f.vals with
          | nil => exact absurd hval2 hv
          | cons d ds => exact ⟨d, ds, rfl⟩
        simp only [do3aLoop, htag, hval, reduceIte, if_true,
          List.head?_cons]
        exact ih { st with af_dist := some d } hrest
      | false =>
        simp only [do3aLoop, htag, reduceIte, Bool.false_eq_true, if_false]
        exact ih st hrest
    · rw [List.cons_append]
      simp only [do3aLoop, htag, reduceIte]
      exact ih
        { st with awb_gains := some (f.vals.take 4),
                  awb_transform := some (f.vals.drop 4) } hrest

/-- The happy-path inbound sequence of C3. -/
def frames3aHappy : List Frame3a :=
  [{ tag := "aeResult", vals := [100, 50] },
   { tag := "awbResult", vals := [1, 2, 3, 4, 5, 6, 7, 8, 9] },
   { tag := "afResult", vals := [42] },
   { tag := "3aConverged", vals := [] },
   { tag := "3aDone", vals := [] }]

/-- C3: with all three triggers enabled and results requested, the frame
sequence [aeResult, awbResult, afResult, 3aConverged, 3aDone] ends on
3aDone (frames after it stay unread) with AE, AWB and AF all populated and
convergence recorded; any well-formed sequence reaching 3aDone without a
preceding 3aConverged raises the convergence error when results were
requested; and any reached frame with a tag outside the protocol set raises
the invalid-response error. -/
theorem claim_C3 :
    (∀ junk : List Frame3a,
      do3aLoop true true (frames3aHappy ++ junk) {} =
        .ok ({ ae_sens := some 100, ae_exp := some 50,
               awb_gains := some [1, 2, 3, 4],
               awb_transform := some [5, 6, 7, 8, 9],
               af_dist := some 42, converged := true }, junk) ∧
      do_3a true true true true false (frames3aHappy ++ junk) =
        .ok (some 100, some 50, some [1, 2, 3, 4], some [5, 6, 7, 8, 9],
             some 42)) ∧
    (∀ (do_ae do_awb do_af mono : Bool) (pre post : List Frame3a)
        (v : List Int),
      (∀ f ∈ pre, validPre do_ae do_af f) →
      do_3a do_ae do_awb do_af true mono
        (pre ++ { tag := "3aDone", vals := v } :: post) =
        .error .convergenceFailed) ∧
    (∀ (do_ae do_awb do_af get_results mono : Bool)
        (pre rest : List Frame3a) (bad : Frame3a),
      (∀ f ∈ pre, validPre do_ae do_af f) →
      bad.tag ∉ (["aeResult", "afResult", "awbResult", "3aConverged",
        "3aDone"] : List String) →
      do_3a do_ae do_awb do_af get_results mono (pre ++ bad :: rest) =
        .error .invalidResponse) := by
  refine ⟨?_, ?_, ?_⟩
  · intro junk
    constructor
    · simp [frames3aHappy, do3aLoop]
    · simp [do_3a, frames3aHappy, do3aLoop]
  · intro do_ae do_awb do_af mono pre post v hpre
    obtain ⟨st2, heq, hc⟩ := do3aLoop_pre do_ae do_af pre {} hpre
      ({ tag := "3aDone", vals := v } :: post)
    unfold do_3a
    rw [heq]
    simp only [do3aLoop, reduceIte]
    simp [hc]
  · intro do_ae do_awb do_af get_results mono pre rest bad hpre hbad
    obtain ⟨st2, heq, hc⟩ := do3aLoop_pre do_ae do_af pre {} hpre
      (bad :: rest)
    unfold do_3a
    rw [heq]
    simp only [List.mem_cons, List.mem_singleton, not_or] at hbad
    obtain ⟨h1, h2, h3, h4, h5, _⟩ := hbad
    simp only [do3aLoop, h1, h2, h3, h4, h5, reduceIte, if_false]

/-- Witness for C3: the happy path with an empty tail, a bare 3aDone with
no converged frame, and an unknown tag. -/
theorem claim_C3_witness :
    do_3a true true true true false frames3aHappy =
      .ok (some 100, some 50, some [1, 2, 3, 4], some [5, 6, 7, 8, 9],
           some 42) ∧
    do_3a true true true true false [{ tag := "3aDone", vals := [] }] =
      .error .convergenceFailed ∧
    do_3a true true true true false [{ tag := "bogus", vals := [] }] =
      .error .invalidResponse := by
  refine ⟨?_, ?_, ?_⟩
  · have h := (claim_C3.1 []).2
    simpa using h
  · have h := claim_C3.2.1 true true true false [] [] []
      (by intro f hf; simp at hf)
    simpa using h
  · have h := claim_C3.2.2 true true true true false [] []
      { tag := "bogus", vals := [] } (by intro f hf; simp at hf) (by simp)
    simpa using h

/-- C10: when 3aDone arrives with no preceding 3aConverged, `do_3a` raises
the convergence error even with `get_results=False`: the early no-results
return requires the converged flag. -/
theorem claim_C10 (do_ae do_awb do_af mono : Bool) (pre post : List Frame3a)
    (v : List Int) (hpre : ∀ f ∈ pre, validPre do_ae do_af f) :
    do_3a do_ae do_awb do_af false mono
      (pre ++ { tag := "3aDone", vals := v } :: post) =
      .error .convergenceFailed := by
  obtain ⟨st2, heq, hc⟩ := do3aLoop_pre do_ae do_af pre {} hpre
    ({ tag := "3aDone", vals := v } :: post)
  unfold do_3a
  rw [heq]
  simp only [do3aLoop, reduceIte]
  simp [hc]

/-- Witness for C10 at a concrete run with results not requested. -/
theorem claim_C10_witness :
    do_3a true true true false false
      [{ tag := "awbResult", vals := [1, 2] },
       { tag := "3aDone", vals := [] }] = .error .convergenceFailed := by
  have h := claim_C10 true true true false
    [{ tag := "awbResult", vals := [1, 2] }] [] []
    (by intro f hf; simp at hf; subst hf; right; right; rfl)
  simpa using h

/-! ## Claim C4: timeout widening and restoration -/

theorem buildCmd_ext (sess : Sess) (capRequest : ReqArg)
    (outSurfaces : SurfArg) (reprocessFormat : Option String)
    (repeatRequest : RepeatArg) (info : CmdInfo)
    (hb : buildCmd sess capRequest outSurfaces reprocessFormat
      repeatRequest = .ok info) :
    info.extTimeout = longestExpTime capRequest.toList / SEC_TO_NSEC +
      SOCK_TIMEOUT +
      (if repeatRequest.truthy = true then EXTRA_SOCK_TIMEOUT else 0) := by
  unfold buildCmd at hb
  repeat' first
    | split at hb
    | dsimp only at hb
  all_goals
    first
      | exact Except.noConfusion hb
      | (injection hb with h; subst h; simp [*])

/-- A session bound to camera "0" with no hidden physical camera. -/
def sessA : Sess := { cameraId := "0" }

/-- A YUV surface with explicit 4x6 size (buffer bucket 36). -/
def surfA : Surface := { sformat := some "yuv", width := some 4,
                         height := some 6 }

/-- A complete single-capture wire: one 36-byte YUV buffer and one
captureResults frame reporting the requested size. -/
def wireA : List InFrame :=
  [.image .yuv "" (some (List.replicate 36 0)),
   .captureResults 7 [] [{ oformat := "yuv", width := 4, height := 6 }]]

/-- Counterexample to C4: a `do_simple_capture` call that completes
normally (the full result is returned) finishes with the widened timeout
25 still installed instead of the baseline `SOCK_TIMEOUT = 20` — the
function never restores the baseline. -/
theorem claim_C4_counterexample :
    (do_simple_capture sessA surfA SOCK_TIMEOUT wireA).result =
      .ok { width := some 4, height := some 6, rformat := "yuv",
            metadata := some 7, data := some (List.replicate 36 0) } ∧
    (do_simple_capture sessA surfA SOCK_TIMEOUT wireA).finalTimeout = 25 ∧
    (25 : Nat) ≠ SOCK_TIMEOUT := by
  refine ⟨by rfl, by rfl, by decide⟩

/-- C4 as amended: `do_capture` widens the per-call timeout additively
(longest declared exposure over 1e9, plus the baseline, plus the extra
allowance when warm-up repeat requests are present) before sending, and
restores the baseline only on normal completion; when receiving or
reassembly fails the widened timeout is left installed.  `do_simple_capture`
widens the timeout to baseline plus extra before sending and never restores
the baseline, whether it completes or fails. -/
theorem claim_C4 :
    (∀ (sess : Sess) (capRequest : ReqArg) (outSurfaces : SurfArg)
       (reprocessFormat : Option String) (repeatRequest : RepeatArg)
       (t0 : Nat) (wire : List InFrame) (v : PyVal),
      (do_capture sess capRequest outSurfaces reprocessFormat repeatRequest
        t0 wire).result = .ok v →
      (do_capture sess capRequest outSurfaces reprocessFormat repeatRequest
        t0 wire).finalTimeout = SOCK_TIMEOUT) ∧
    (∀ (sess : Sess) (capRequest : ReqArg) (outSurfaces : SurfArg)
       (reprocessFormat : Option String) (repeatRequest : RepeatArg)
       (t0 : Nat) (wire : List InFrame) (info : CmdInfo),
      buildCmd sess capRequest outSurfaces reprocessFormat repeatRequest =
        .ok info →
      (do_capture sess capRequest outSurfaces reprocessFormat repeatRequest
        t0 wire).sent = true ∧
      (do_capture sess capRequest outSurfaces reprocessFormat repeatRequest
        t0 wire).sendTimeout = some info.extTimeout ∧
      info.extTimeout = longestExpTime capRequest.toList / SEC_TO_NSEC +
        SOCK_TIMEOUT +
        (if repeatRequest.truthy = true then EXTRA_SOCK_TIMEOUT else 0)) ∧
    (∀ (sess : Sess) (capRequest : ReqArg) (outSurfaces : SurfArg)
       (reprocessFormat : Option String) (repeatRequest : RepeatArg)
       (t0 : Nat) (wire : List InFrame) (info : CmdInfo) (e : ItsError),
      buildCmd sess capRequest outSurfaces reprocessFormat repeatRequest =
        .ok info →
      do_capture_results sess info wire = .error e →
      (do_capture sess capRequest outSurfaces reprocessFormat repeatRequest
        t0 wire).result = .error e ∧
      (do_capture sess capRequest outSurfaces reprocessFormat repeatRequest
        t0 wire).finalTimeout = info.extTimeout) ∧
    (∀ (sess : Sess) (outSurface : Surface) (t0 : Nat)
       (wire : List InFrame),
      (do_simple_capture sess outSurface t0 wire).sent = true →
      (do_simple_capture sess outSurface t0 wire).finalTimeout =
        SOCK_TIMEOUT + EXTRA_SOCK_TIMEOUT) := by
  refine ⟨?_, ?_, ?_, ?_⟩
  · intro sess capRequest outSurfaces reprocessFormat repeatRequest t0 wire
      v hok
    cases hb : buildCmd sess capRequest outSurfaces reprocessFormat
        repeatRequest with
    | error e =>
      simp only [do_capture, hb] at hok
      exact Except.noConfusion hok
    | ok info =>
      simp only [do_capture, hb] at hok ⊢
      cases hr : do_capture_results sess info wire with
      | error e =>
        simp only [hr] at hok
        exact Except.noConfusion hok
      | ok q =>
        obtain ⟨matrix, rest⟩ := q
        simp only [hr] at hok ⊢
        cases hs : shapeRets info.ncap capRequest.isList matrix with
        | error e =>
          simp only [hs] at hok
          exact Except.noConfusion hok
        | ok w =>
          simp only [hs]
  · intro sess capRequest outSurfaces reprocessFormat repeatRequest t0 wire
      info hb
    refine ⟨?_, ?_, buildCmd_ext sess capRequest outSurfaces
      reprocessFormat repeatRequest info hb⟩ <;>
    · simp only [do_capture, hb]
      cases hr : do_capture_results sess info wire with
      | error e => rfl
      | ok q =>
        obtain ⟨matrix, rest⟩ := q
        dsimp only
        cases hs : shapeRets info.ncap capRequest.isList matrix with
        | error e => rfl
        | ok w => rfl
  · intro sess capRequest outSurfaces reprocessFormat repeatRequest t0 wire
      info e hb hr
    simp [do_capture, hb, hr]
  · intro sess outSurface t0 wire hsent
    cases hp : simplePrepare sess outSurface with
    | error e =>
      simp only [do_simple_capture, hp] at hsent
      exact Bool.noConfusion hsent
    | ok q =>
      obtain ⟨surface, camId, fmt0, yuvKey⟩ := q
      simp only [do_simple_capture, hp]
      cases hl : simpleLoop sess.cameraId camId yuvKey surface wire
          { bufsStore := fun _ => [], yuvStore := [], nbufs := 0,
            fmt := fmt0 } with
      | error e2 => rfl
      | ok q2 =>
        obtain ⟨st, rest⟩ := q2
        dsimp only
        cases ha : simpleAssemble sess.cameraId camId yuvKey st with
        | error e3 => rfl
        | ok ret => rfl

/-- Witness for C4: the successful concrete `do_capture` run restores the
baseline, and the concrete `do_simple_capture` run keeps the widened
timeout. -/
theorem claim_C4_witness :
    (do_capture sessA (.single {}) (.single surfA) none .noneGiven
      SOCK_TIMEOUT wireA).finalTimeout = SOCK_TIMEOUT ∧
    (do_simple_capture sessA surfA SOCK_TIMEOUT wireA).finalTimeout =
      SOCK_TIMEOUT + EXTRA_SOCK_TIMEOUT := by
  constructor
  · exact claim_C4.1 sessA (.single {}) (.single surfA) none .noneGiven
      SOCK_TIMEOUT wireA _ (by rfl)
  · exact claim_C4.2.2.2 sessA surfA SOCK_TIMEOUT wireA (by rfl)

/-! ## Claim C7: width/height round trip and the size check -/

/-- The width/height fields of the receive state match the request whenever
a captureResults frame has been accepted. -/
def widthInv (surface : Surface) (st : SimpleState) : Prop :=
  st.captureResultsReturned = true →
    st.width = surface.width ∧ st.height = surface.height

theorem processSimpleFrame_widthInv (primary camId : String)
    (yuvKey : Option (String × Nat)) (surface : Surface)
    (st st2 : SimpleState) (f : InFrame)
    (h : processSimpleFrame primary camId yuvKey surface st f = .ok st2)
    (hInv : widthInv surface st) : widthInv surface st2 := by
  cases f with
  | captureResults m phys outs =>
    simp only [processSimpleFrame] at h
    repeat' first
      | dsimp only at h
      | split at h
    all_goals first
      | exact Except.noConfusion h
      | (injection h with h2; subst h2
         intro _
         constructor <;> simp_all)
  | other tag =>
    simp only [processSimpleFrame] at h
    injection h with h2
    subst h2
    exact hInv
  | image ifmt sfx buf =>
    simp only [processSimpleFrame] at h
    repeat' first
      | dsimp only at h
      | split at h
    all_goals first
      | exact Except.noConfusion h
      | (injection h with h2; subst h2; intro hcr; exact hInv hcr)

theorem simpleLoop_ok (primary camId : String)
    (yuvKey : Option (String × Nat)) (surface : Surface) :
    ∀ (wire : List InFrame) (st st2 : SimpleState) (rest : List InFrame),
      simpleLoop primary camId yuvKey surface wire st = .ok (st2, rest) →
      widthInv surface st →
      st2.captureResultsReturned = true ∧ widthInv surface st2 := by
  intro wire
  induction wire with
  | nil =>
    intro st st2 rest h hInv
    rw [simpleLoop] at h
    split at h
    · next hc =>
      injection h with h2
      cases h2
      exact ⟨hc.2, hInv⟩
    · exact Except.noConfusion h
  | cons f fs ih =>
    intro st st2 rest h hInv
    rw [simpleLoop] at h
    split at h
    · next hc =>
      injection h with h2
      cases h2
      exact ⟨hc.2, hInv⟩
    · cases hp : processSimpleFrame primary camId yuvKey surface st f with
      | error e => rw [hp] at h; exact Except.noConfusion h
      | ok stNext =>
        rw [hp] at h
        exact ih stNext st2 rest h
          (processSimpleFrame_widthInv primary camId yuvKey surface st
            stNext f hp hInv)

theorem simpleAssemble_width (primary camId : String)
    (yuvKey : Option (String × Nat)) (st : SimpleState) (ret : SimpleRet)
    (h : simpleAssemble primary camId yuvKey st = .ok ret) :
    ret.width = st.width ∧ ret.height = st.height := by
  unfold simpleAssemble at h
  repeat' first
    | split at h
    | dsimp only at h
  all_goals first
    | exact Except.noConfusion h
    | (injection h with h2; subst h2; exact ⟨rfl, rfl⟩)

theorem simplePrepare_surface (sess : Sess) (outSurface surface : Surface)
    (camId fmt0 : String) (yuvKey : Option (String × Nat))
    (hp : simplePrepare sess outSurface = .ok (surface, camId, fmt0, yuvKey)) :
    surface.width = outSurface.width ∧ surface.height = outSurface.height := by
  unfold simplePrepare at hp
  repeat' first
    | split at hp
    | dsimp only at hp
  all_goals first
    | exact Except.noConfusion hp
    | (injection hp with h2
       obtain ⟨h3, -⟩ := Prod.mk.injEq .. ▸ (Prod.mk.inj h2)
       subst h3
       constructor <;> (cases sess.hiddenPhysicalId <;> simp_all))

/-- Counterexample to C7: `do_capture` with one YUV surface requested at
4x6 and a service report of 6x4 (the same 36-byte bucket) returns a result
carrying the reported 6x4 instead of raising — `do_capture` never compares
the reported size against the request. -/
theorem claim_C7_counterexample :
    (do_capture sessA (.single {}) (.single surfA) none .noneGiven
      SOCK_TIMEOUT
      [.image .yuv "" (some (List.replicate 36 0)),
       .captureResults 7 [] [{ oformat := "yuv", width := 6,
                               height := 4 }]]).result =
      .ok (.obj { width := 6, height := 4, rformat := "yuv",
                  metadata := some 7,
                  data := some (some (List.replicate 36 0)) }) ∧
    surfA.width = some 4 ∧ surfA.height = some 6 ∧ (6 : Nat) ≠ 4 := by
  refine ⟨by rfl, rfl, rfl, by decide⟩

/-- C7 as amended: in `do_simple_capture`, a single capture of one surface
returns a result whose width and height equal the requested values (the
size assertion enforces it on every accepted metadata frame), and a
captureResults frame reporting a size different from the request raises the
incorrect-size error instead of returning a result.  `do_capture` performs
no such comparison. -/
theorem claim_C7 :
    (∀ (sess : Sess) (outSurface : Surface) (t0 : Nat)
       (wire : List InFrame) (ret : SimpleRet),
      (do_simple_capture sess outSurface t0 wire).result = .ok ret →
      ret.width = outSurface.width ∧ ret.height = outSurface.height) ∧
    (∀ (sess : Sess) (outSurface surface : Surface) (camId fmt0 : String)
       (yuvKey : Option (String × Nat)) (t0 : Nat) (rw rh w2 h2 : Nat)
       (m : Md) (phys : List PhysEntry) (rest : List InFrame),
      simplePrepare sess outSurface = .ok (surface, camId, fmt0, yuvKey) →
      surface.width = some rw → surface.height = some rh →
      (rw ≠ w2 ∨ rh ≠ h2) →
      (do_simple_capture sess outSurface t0
        (.captureResults m phys [{ oformat := fmt0, width := w2,
                                   height := h2 }] :: rest)).result =
        .error .incorrectSize) := by
  constructor
  · intro sess outSurface t0 wire ret hok
    cases hp : simplePrepare sess outSurface with
    | error e =>
      simp only [do_simple_capture, hp] at hok
      exact Except.noConfusion hok
    | ok q =>
      obtain ⟨surface, camId, fmt0, yuvKey⟩ := q
      simp only [do_simple_capture, hp] at hok
      cases hl : simpleLoop sess.cameraId camId yuvKey surface wire
          { bufsStore := fun _ => [], yuvStore := [], nbufs := 0,
            fmt := fmt0 } with
      | error e2 =>
        rw [hl] at hok
        exact Except.noConfusion hok
      | ok q2 =>
        obtain ⟨st, rest⟩ := q2
        rw [hl] at hok
        dsimp only at hok
        cases ha : simpleAssemble sess.cameraId camId yuvKey st with
        | error e3 =>
          rw [ha] at hok
          exact Except.noConfusion hok
        | ok ret2 =>
          rw [ha] at hok
          dsimp only at hok
          injection hok with h2
          subst h2
          obtain ⟨hcr, hInv⟩ := simpleLoop_ok sess.cameraId camId yuvKey
            surface wire _ st rest hl (by intro hc; simp at hc)
          obtain ⟨hw, hh⟩ := hInv hcr
          obtain ⟨hrw, hrh⟩ := simpleAssemble_width sess.cameraId camId
            yuvKey st ret2 ha
          obtain ⟨hsw, hsh⟩ := simplePrepare_surface sess outSurface
            surface camId fmt0 yuvKey hp
          exact ⟨by rw [hrw, hw, hsw], by rw [hrh, hh, hsh]⟩
  · intro sess outSurface surface camId fmt0 yuvKey t0 rw2 rh2 w2 h2 m phys
      rest hp hw hh hne
    simp only [do_simple_capture, hp]
    rw [simpleLoop]
    rw [if_neg (by intro hc; simp at hc)]
    have hpf : processSimpleFrame sess.cameraId camId yuvKey surface
        { bufsStore := fun _ => [], yuvStore := [], nbufs := 0,
          fmt := fmt0 }
        (.captureResults m phys [{ oformat := fmt0, width := w2,
                                   height := h2 }]) =
        .error .incorrectSize := by
      simp only [processSimpleFrame, List.head?_cons]
      rw [if_neg (by simp)]
      rw [hw, hh]
      dsimp only
      rw [if_pos hne]
    rw [hpf]

/-- Witness for C7: the concrete round trip returns the requested 4x6, and
a 5x6 report against the 4x6 request raises the incorrect-size error. -/
theorem claim_C7_witness :
    ((do_simple_capture sessA surfA SOCK_TIMEOUT wireA).result =
      .ok { width := some 4, height := some 6, rformat := "yuv",
            metadata := some 7, data := some (List.replicate 36 0) } ∧
      (some 4 = surfA.width ∧ some 6 = surfA.height)) ∧
    (do_simple_capture sessA surfA SOCK_TIMEOUT
      [.captureResults 7 [] [{ oformat := "yuv", width := 5,
                               height := 6 }]]).result =
      .error .incorrectSize := by
  constructor
  · refine ⟨by rfl, ?_⟩
    have h := claim_C7.1 sessA surfA SOCK_TIMEOUT wireA
      { width := some 4, height := some 6, rformat := "yuv",
        metadata := some 7, data := some (List.replicate 36 0) } (by rfl)
    exact ⟨h.1.symm, h.2.symm⟩
  · exact claim_C7.2 sessA surfA
      { sformat := some "yuv", width := some 4, height := some 6,
        physicalCamera := none } "0" "yuv" (some ("0", 36)) SOCK_TIMEOUT
      4 6 5 6 7 [] [] (by rfl) rfl rfl (by decide)

/-! ## Claim C6: the return shape of `do_capture` -/

instance : Inhabited CapResult :=
  ⟨{ width := 0, height := 0, rformat := "", metadata := none,
     data := none }⟩

instance : Inhabited PyVal := ⟨.obj default⟩

theorem mapM_ok_length {α β : Type} (f : α → Except ItsError β) :
    ∀ (l : List α) (r : List β), l.mapM f = .ok r → r.length = l.length := by
  intro l
  induction l with
  | nil =>
    intro r h
    simp only [List.mapM_nil, pure, Except.pure] at h
    injection h with h2
    subst h2
    rfl
  | cons a l ih =>
    intro r h
    rw [List.mapM_cons] at h
    cases ha : f a with
    | error e =>
      simp only [ha, bind, Except.bind] at h
      exact Except.noConfusion h
    | ok b =>
      simp only [ha, bind, Except.bind] at h
      cases hl : l.mapM f with
      | error e =>
        simp only [hl] at h
        exact Except.noConfusion h
      | ok rs =>
        simp only [hl, pure, Except.pure] at h
        injection h with h2
        subst h2
        simp [ih rs hl]

theorem mapM_ok_forall {α β : Type} (f : α → Except ItsError β) :
    ∀ (l : List α) (r : List β), l.mapM f = .ok r →
      ∀ x ∈ r, ∃ a ∈ l, f a = .ok x := by
  intro l
  induction l with
  | nil =>
    intro r h x hx
    simp only [List.mapM_nil, pure, Except.pure] at h
    injection h with h2
    subst h2
    simp at hx
  | cons a l ih =>
    intro r h x hx
    rw [List.mapM_cons] at h
    cases ha : f a with
    | error e =>
      simp only [ha, bind, Except.bind] at h
      exact Except.noConfusion h
    | ok b =>
      simp only [ha, bind, Except.bind] at h
      cases hl : l.mapM f with
      | error e =>
        simp only [hl] at h
        exact Except.noConfusion h
      | ok rs =>
        simp only [hl, pure, Except.pure] at h
        injection h with h2
        subst h2
        rcases List.mem_cons.mp hx with hxb | hxs
        · exact ⟨a, by simp, hxb ▸ ha⟩
        · obtain ⟨c, hc, hfc⟩ := ih rs hl x hxs
          exact ⟨c, by simp [hc], hfc⟩

theorem mapM_ok_of_total {α β : Type} (f : α → Except ItsError β)
    (g : α → β) :
    ∀ (l : List α), (∀ a ∈ l, f a = .ok (g a)) →
      l.mapM f = .ok (l.map g) := by
  intro l
  induction l with
  | nil => intro _; rfl
  | cons a l ih =>
    intro htot
    rw [List.mapM_cons, htot a (by simp),
      ih (fun b hb => htot b (by simp [hb]))]
    rfl

theorem assembleAll_shape (primary : String) (camIds : List String)
    (buckets : List (String × List Nat)) (surfaces : List Surface)
    (formats : List String) (ncap : Nat) (st : RxState)
    (matrix : List (List CapResult))
    (h : assembleAll primary camIds buckets surfaces formats ncap st =
      .ok matrix) :
    matrix.length = formats.length ∧ ∀ row ∈ matrix, row.length = ncap := by
  unfold assembleAll at h
  constructor
  · have := mapM_ok_length _ _ _ h
    simpa using this
  · intro row hrow
    obtain ⟨j, -, hj⟩ := mapM_ok_forall _ _ _ h row hrow
    have := mapM_ok_length _ _ _ hj
    simpa using this

theorem buildCmd_formats_len (sess : Sess) (capRequest : ReqArg)
    (outSurfaces : SurfArg) (reprocessFormat : Option String)
    (repeatRequest : RepeatArg) (info : CmdInfo)
    (hb : buildCmd sess capRequest outSurfaces reprocessFormat
      repeatRequest = .ok info) :
    info.formats.length = info.nsurf ∧ info.ncap = capRequest.toList.length := by
  unfold buildCmd at hb
  repeat' first
    | split at hb
    | dsimp only at hb
  all_goals first
    | exact Except.noConfusion hb
    | (injection hb with h; subst h; constructor <;> simp [fmtsOf])

theorem do_capture_results_parts (sess : Sess) (info : CmdInfo)
    (wire : List InFrame) (matrix : List (List CapResult))
    (rest : List InFrame)
    (h : do_capture_results sess info wire = .ok (matrix, rest)) :
    ∃ st, rxLoop sess.cameraId info.camIds info.buckets
        (info.ncap * info.nsurf) info.ncap wire initRxState =
        .ok (st, rest) ∧
      assembleAll sess.cameraId info.camIds info.buckets info.surfaces
        info.formats info.ncap st = .ok matrix := by
  unfold do_capture_results at h
  cases hl : rxLoop sess.cameraId info.camIds info.buckets
      (info.ncap * info.nsurf) info.ncap wire initRxState with
  | error e => rw [hl] at h; exact Except.noConfusion h
  | ok q =>
    obtain ⟨st, rest2⟩ := q
    rw [hl] at h
    dsimp only at h
    cases ha : assembleAll sess.cameraId info.camIds info.buckets
        info.surfaces info.formats info.ncap st with
    | error e => rw [ha] at h; exact Except.noConfusion h
    | ok m2 =>
      rw [ha] at h
      dsimp only at h
      injection h with h2
      obtain ⟨hm, hr⟩ := Prod.mk.inj h2
      subst hm
      subst hr
      exact ⟨st, rfl, ha⟩

/-- The per-surface elements of `rets` (line 1463): the burst list when
`ncap > 1`, the single result otherwise. -/
def retsShape (ncap : Nat) (matrix : List (List CapResult)) : List PyVal :=
  matrix.map (fun row =>
    if 1 < ncap then .list (row.map .obj) else .obj row.headI)

/-- The final value shape of `do_capture` (lines 1463-1469). -/
def finalShape (ncap : Nat) (isList : Bool)
    (matrix : List (List CapResult)) : PyVal :=
  let rets := retsShape ncap matrix
  if 1 < rets.length ∨ (ncap = 1 ∧ isList = true) then .list rets
  else rets.headI

theorem shapeRets_eval (ncap : Nat) (isList : Bool)
    (matrix : List (List CapResult))
    (hrows : ∀ row ∈ matrix, row.length = ncap) (hM : 1 ≤ ncap)
    (hNE : matrix ≠ []) :
    shapeRets ncap isList matrix =
      .ok (finalShape ncap isList matrix) := by
  have hmap : matrix.mapM (fun objs =>
      if 1 < ncap then Except.ok (PyVal.list (objs.map PyVal.obj))
      else
        match objs.head? with
        | some o => Except.ok (PyVal.obj o)
        | none => Except.error ItsError.indexError) =
      .ok (retsShape ncap matrix) := by
    apply mapM_ok_of_total
    intro row hrow
    by_cases hn : 1 < ncap
    · simp [hn]
    · have hone : ncap = 1 := by omega
      obtain ⟨x, hx⟩ := List.length_eq_one.mp (by rw [hrows row hrow, hone])
      subst hx
      simp [hn, List.headI]
  unfold shapeRets
  rw [hmap]
  dsimp only
  unfold finalShape
  by_cases hlen : 1 < (retsShape ncap matrix).length
  · simp [hlen]
  · have hlm : (retsShape ncap matrix).length = matrix.length := by
      simp [retsShape]
    have hne2 : matrix.length ≠ 0 := by
      intro hc
      exact hNE (List.length_eq_zero.mp hc)
    have hone : matrix.length = 1 := by omega
    obtain ⟨row, hrow⟩ := List.length_eq_one.mp hone
    subst hrow
    by_cases hn : 1 < ncap
    · have hne1 : ¬ ncap = 1 := by omega
      simp [retsShape, hn, PyVal.isObj, hlen, hne1]
    · have hone2 : ncap = 1 := by omega
      subst hone2
      by_cases hl : isList = true
      · simp [retsShape, PyVal.isObj, hl]
      · simp [retsShape, PyVal.isObj, hl, List.headI]

/-- Counterexample to C6.  First run: two surfaces (jpeg and yuv) with a
single capture request — `do_capture` returns a flat list whose elements
are the two result dictionaries themselves, not per-surface sequences.
Second run: one surface with a burst passed as a one-element list —
`do_capture` returns a one-element list, not a scalar, although N = M = 1. -/
theorem claim_C6_counterexample :
    (do_capture sessA (.single {}) (.listOf [{ sformat := some "jpeg" },
        surfA]) none .noneGiven SOCK_TIMEOUT
      [.image .jpeg "" (some [9, 9]),
       .image .yuv "" (some (List.replicate 36 0)),
       .captureResults 7 []
         [{ oformat := "jpeg", width := 100, height := 80 },
          { oformat := "yuv", width := 4, height := 6 }]]).result =
      .ok (.list
        [.obj { width := 100, height := 80, rformat := "jpeg",
                metadata := some 7, data := some (some [9, 9]) },
         .obj { width := 4, height := 6, rformat := "yuv",
                metadata := some 7,
                data := some (some (List.replicate 36 0)) }]) ∧
    (do_capture sessA (.listOf [{}]) (.single surfA) none .noneGiven
      SOCK_TIMEOUT wireA).result =
      .ok (.list
        [.obj { width := 4, height := 6, rformat := "yuv",
                metadata := some 7,
                data := some (some (List.replicate 36 0)) }]) := by
  constructor <;> rfl

/-- C6 as amended: on a completed capture, `do_capture` returns a scalar
result when N = 1, M = 1 and the request was passed as a single object; a
one-element sequence when N = 1, M = 1 and the request was passed as a
list; a flat sequence over captures when N = 1, M > 1; and, when N > 1, a
sequence with one entry per surface, each entry being the per-capture
sequence when M > 1 and the single per-surface result when M = 1. -/
theorem claim_C6 (sess : Sess) (capRequest : ReqArg)
    (outSurfaces : SurfArg) (reprocessFormat : Option String)
    (repeatRequest : RepeatArg) (t0 : Nat) (wire : List InFrame)
    (info : CmdInfo) (matrix : List (List CapResult))
    (rest : List InFrame)
    (hb : buildCmd sess capRequest outSurfaces reprocessFormat
      repeatRequest = .ok info)
    (hr : do_capture_results sess info wire = .ok (matrix, rest))
    (hM : 1 ≤ info.ncap) (hN : 1 ≤ info.nsurf) :
    (do_capture sess capRequest outSurfaces reprocessFormat repeatRequest
      t0 wire).result =
      .ok (finalShape info.ncap capRequest.isList matrix) ∧
    matrix.length = info.nsurf ∧
    (info.nsurf = 1 ∧ info.ncap = 1 ∧ capRequest.isList = false →
      finalShape info.ncap capRequest.isList matrix =
        .obj matrix.headI.headI) ∧
    (info.nsurf = 1 ∧ info.ncap = 1 ∧ capRequest.isList = true →
      finalShape info.ncap capRequest.isList matrix =
        .list [.obj matrix.headI.headI]) ∧
    (info.nsurf = 1 ∧ 1 < info.ncap →
      finalShape info.ncap capRequest.isList matrix =
        .list (matrix.headI.map .obj)) ∧
    (1 < info.nsurf →
      finalShape info.ncap capRequest.isList matrix =
        .list (retsShape info.ncap matrix)) := by
  obtain ⟨st, hl, ha⟩ := do_capture_results_parts sess info wire matrix
    rest hr
  obtain ⟨hmlen, hrows⟩ := assembleAll_shape sess.cameraId info.camIds
    info.buckets info.surfaces info.formats info.ncap st matrix ha
  obtain ⟨hflen, -⟩ := buildCmd_formats_len sess capRequest outSurfaces
    reprocessFormat repeatRequest info hb
  have hmn : matrix.length = info.nsurf := by rw [hmlen, hflen]
  have hne : matrix ≠ [] := by
    intro hc
    rw [hc] at hmn
    simp at hmn
    omega
  have hshape := shapeRets_eval info.ncap capRequest.isList matrix hrows
    hM hne
  refine ⟨?_, hmn, ?_, ?_, ?_, ?_⟩
  · simp only [do_capture, hb, hr, hshape]
  · rintro ⟨h1, h2, h3⟩
    obtain ⟨row, hrow⟩ := List.length_eq_one.mp (hmn.trans h1)
    subst hrow
    obtain ⟨x, hx⟩ := List.length_eq_one.mp
      ((hrows row (by simp)).trans h2)
    subst hx
    simp [finalShape, retsShape, h2, h3, List.headI]
  · rintro ⟨h1, h2, h3⟩
    obtain ⟨row, hrow⟩ := List.length_eq_one.mp (hmn.trans h1)
    subst hrow
    obtain ⟨x, hx⟩ := List.length_eq_one.mp
      ((hrows row (by simp)).trans h2)
    subst hx
    simp [finalShape, retsShape, h2, h3, List.headI]
  · rintro ⟨h1, h2⟩
    obtain ⟨row, hrow⟩ := List.length_eq_one.mp (hmn.trans h1)
    subst hrow
    have hn2 : ¬ info.ncap = 1 := by omega
    simp [finalShape, retsShape, h2, hn2, List.headI]
  · intro h1
    have hlen : 1 < (retsShape info.ncap matrix).length := by
      simp [retsShape]
      omega
    simp [finalShape, hlen]

/-- The validated command of the concrete one-surface one-capture run. -/
def infoA : CmdInfo :=
  { surfaces := [surfA], formats := ["yuv"], ncap := 1, nsurf := 1,
    camIds := ["0"], buckets := [("0", [36])], extTimeout := 20 }

/-- The result cell of the concrete run. -/
def cellA : CapResult :=
  { width := 4, height := 6, rformat := "yuv", metadata := some 7,
    data := some (some (List.replicate 36 0)) }

/-- Witness for C6 at the concrete one-surface single-object run: the
scalar shape. -/
theorem claim_C6_witness :
    (do_capture sessA (.single {}) (.single surfA) none .noneGiven
      SOCK_TIMEOUT wireA).result =
      .ok (finalShape 1 false [[cellA]]) ∧
    finalShape 1 false [[cellA]] = .obj cellA := by
  have h := claim_C6 sessA (.single {}) (.single surfA) none .noneGiven
    SOCK_TIMEOUT wireA infoA [[cellA]] [] (by rfl) (by rfl)
    (by decide) (by decide)
  exact ⟨h.1, (h.2.2.1 ⟨rfl, rfl, rfl⟩).trans (by simp [List.headI])⟩

/-! ## Claim C2: stream-collision validation rejects before sending -/

theorem length_ge_card_add_count {α : Type} [DecidableEq α] (l : List α)
    (f y : α) (hfy : f ≠ y) (hdup : 2 ≤ l.count f) :
    l.toFinset.card + l.count y ≤ l.length := by
  classical
  have hsum : ∑ a in l.toFinset, l.count a = l.length := by
    have h := Multiset.toFinset_sum_count_eq (l : Multiset α)
    simpa using h
  have hf : f ∈ l.toFinset := by
    rw [List.mem_toFinset]
    exact List.count_pos_iff.mp (by omega)
  have h1 : l.count f + ∑ a in l.toFinset.erase f, l.count a = l.length :=
    (Finset.add_sum_erase l.toFinset (fun a => List.count a l) hf).trans hsum
  have hcf : (l.toFinset.erase f).card = l.toFinset.card - 1 :=
    Finset.card_erase_of_mem hf
  by_cases hy : y ∈ l.toFinset
  · have hy2 : y ∈ l.toFinset.erase f :=
      Finset.mem_erase.mpr ⟨fun hc => hfy hc.symm, hy⟩
    have h2 : l.count y + ∑ a in (l.toFinset.erase f).erase y, l.count a =
        ∑ a in l.toFinset.erase f, l.count a :=
      Finset.add_sum_erase (l.toFinset.erase f) (fun a => List.count a l) hy2
    have h3 : ((l.toFinset.erase f).erase y).card ≤
        ∑ a in (l.toFinset.erase f).erase y, l.count a := by
      have h4 := Finset.card_nsmul_le_sum ((l.toFinset.erase f).erase y)
        (fun a => l.count a) 1 ?_
      · simpa using h4
      · intro x hx
        have hx2 : x ∈ l := by
          rw [← List.mem_toFinset]
          exact (Finset.mem_erase.mp (Finset.mem_erase.mp hx).2).2
        exact List.count_pos_iff.mpr hx2
    have hcy : ((l.toFinset.erase f).erase y).card =
        (l.toFinset.erase f).card - 1 := Finset.card_erase_of_mem hy2
    have hpos : 1 ≤ (l.toFinset.erase f).card :=
      Finset.card_pos.mpr ⟨y, hy2⟩
    omega
  · have hzero : l.count y = 0 :=
      List.count_eq_zero.mpr (fun hc => hy (List.mem_toFinset.mpr hc))
    have h3 : (l.toFinset.erase f).card ≤
        ∑ a in l.toFinset.erase f, l.count a := by
      have h4 := Finset.card_nsmul_le_sum (l.toFinset.erase f)
        (fun a => l.count a) 1 ?_
      · simpa using h4
      · intro x hx
        have hx2 : x ∈ l := by
          rw [← List.mem_toFinset]
          exact (Finset.mem_erase.mp hx).2
        exact List.count_pos_iff.mpr hx2
    have hpos : 1 ≤ l.toFinset.card := Finset.card_pos.mpr ⟨f, hf⟩
    omega

theorem setCard_lt_of_dup {α : Type} [DecidableEq α] (A B C : List α)
    (v : α) :
    setCard (A ++ v :: B ++ v :: C) < (A ++ v :: B ++ v :: C).length := by
  have hsub : (A ++ v :: B ++ v :: C).toFinset =
      (A ++ v :: B ++ C).toFinset := by
    ext x
    simp only [List.mem_toFinset, List.mem_append, List.mem_cons]
    tauto
  have hle : (A ++ v :: B ++ C).toFinset.card ≤ (A ++ v :: B ++ C).length :=
    List.toFinset_card_le _
  have hl1 : (A ++ v :: B ++ C).length + 1 =
      (A ++ v :: B ++ v :: C).length := by
    simp only [List.length_append, List.length_cons]
    omega
  unfold setCard
  rw [hsub]
  omega

theorem count_two_of_dup {α : Type} [DecidableEq α] (A B C : List α)
    (v : α) : 2 ≤ (A ++ v :: B ++ v :: C).count v := by
  simp only [List.count_append, List.count_cons]
  simp
  omega

theorem count_map_ge {α : Type} (g : α → String) (v : String) :
    ∀ (t : List α) (p : α → Bool), (∀ s, p s = true → g s = v) →
      (t.filter p).length ≤ (t.map g).count v := by
  intro t
  induction t with
  | nil => intro p _; simp
  | cons a t ih =>
    intro p hp
    by_cases hpa : p a = true
    · rw [List.filter_cons, if_pos hpa]
      simp only [List.map_cons, List.count_cons, hp a hpa,
        List.length_cons]
      have := ih p hp
      simp
      omega
    · rw [List.filter_cons, if_neg hpa]
      simp only [List.map_cons, List.count_cons]
      have := ih p hp
      omega

theorem yuvMaxsize1d_ok (pr : Props) (hnz : pr.yuvSizes ≠ [])
    (ys : List Surface) : ∃ m, yuvMaxsize1d (some pr) ys = .ok m := by
  unfold yuvMaxsize1d
  cases hfind : ys.find? (fun s => s.width = none ∧ s.height = none) with
  | none => exact ⟨0, rfl⟩
  | some s =>
    dsimp only
    cases hh : pr.yuvSizes.head? with
    | none =>
      exact absurd (List.head?_eq_none_iff.mp hh) hnz
    | some q => exact ⟨(q.1 * q.2 * 3) / 2, rfl⟩

theorem camSurfaceData_primary (primary : String) (ss : List Surface)
    (hany : ss.any (fun s => s.sformat = none) = false) :
    camSurfaceData primary primary ss =
      .ok (ss.filter (fun s =>
             s.sformat = some "yuv" ∧ s.physicalCamera = none),
           (ss.filter (fun s => s.physicalCamera = none)).map
             (fun s => s.sformat.getD "")) := by
  unfold camSurfaceData
  simp [hany]

theorem camSurfaceData_physical (primary cam : String) (hne : ¬ cam = primary)
    (ss : List Surface)
    (hany : ss.any (fun s => s.sformat = none) = false) :
    camSurfaceData primary cam ss =
      .ok (ss.filter (fun s =>
             s.sformat = some "yuv" ∧ s.physicalCamera = some cam),
           (ss.filter (fun s => s.physicalCamera = some cam)).map
             (fun s => s.sformat.getD "")) := by
  unfold camSurfaceData
  simp [hany, hne]

theorem camCheck_error_kinds (primary cam : String) (pr : Props)
    (hnz : pr.yuvSizes ≠ []) (ss : List Surface)
    (hany : ss.any (fun s => s.sformat = none) = false) (e : ItsError)
    (h : camCheck primary cam (some pr) ss = .error e) :
    e = .yuvSameSize ∨ e = .duplicateFormat := by
  unfold camCheck at h
  by_cases hc : cam = primary
  · subst hc
    rw [camSurfaceData_primary cam ss hany] at h
    dsimp only at h
    obtain ⟨m, hm⟩ := yuvMaxsize1d_ok pr hnz _
    rw [hm] at h
    dsimp only at h
    split at h
    · injection h with h2; exact Or.inl h2.symm
    · split at h
      · injection h with h2; exact Or.inr h2.symm
      · exact Except.noConfusion h
  · rw [camSurfaceData_physical primary cam hc ss hany] at h
    dsimp only at h
    obtain ⟨m, hm⟩ := yuvMaxsize1d_ok pr hnz _
    rw [hm] at h
    dsimp only at h
    split at h
    · injection h with h2; exact Or.inl h2.symm
    · split at h
      · injection h with h2; exact Or.inr h2.symm
      · exact Except.noConfusion h

theorem yuvSizes_dup_cond (m : Nat) (A B C : List Surface)
    (s1 s2 : Surface)
    (hsz : (∃ w h, s1.width = some w ∧ s1.height = some h ∧
        s2.width = some w ∧ s2.height = some h) ∨
      (s1.width = none ∧ s1.height = none ∧ s2.width = none ∧
        s2.height = none)) :
    (yuvSizesList m (A ++ s1 :: B ++ s2 :: C)).length ≠
      setCard (yuvSizesList m (A ++ s1 :: B ++ s2 :: C)) := by
  have key : ∀ v : Nat, yuvSizesList m [s1] = [v] →
      yuvSizesList m [s2] = [v] →
      (yuvSizesList m (A ++ s1 :: B ++ s2 :: C)).length ≠
        setCard (yuvSizesList m (A ++ s1 :: B ++ s2 :: C)) := by
    intro v hv1 hv2
    have hmap : yuvSizesList m (A ++ s1 :: B ++ s2 :: C) =
        yuvSizesList m A ++ v :: yuvSizesList m B ++
          v :: yuvSizesList m C := by
      unfold yuvSizesList at hv1 hv2 ⊢
      simp only [List.map_cons, List.map_nil] at hv1 hv2
      simp only [List.map_append, List.map_cons]
      rw [List.cons.injEq] at hv1 hv2
      rw [hv1.1, hv2.1]
    rw [hmap]
    have hdup := setCard_lt_of_dup (yuvSizesList m A) (yuvSizesList m B)
      (yuvSizesList m C) v
    omega
  rcases hsz with ⟨w, h, hw1, hh1, hw2, hh2⟩ | ⟨hw1, hh1, hw2, hh2⟩
  · exact key ((w * h * 3) / 2) (by simp [yuvSizesList, hw1, hh1])
      (by simp [yuvSizesList, hw2, hh2])
  · exact key m (by simp [yuvSizesList, hw1, hh1])
      (by simp [yuvSizesList, hw2, hh2])

theorem camCheck_fails (primary cam : String) (pr : Props)
    (hnz : pr.yuvSizes ≠ []) (ss : List Surface)
    (yuvS : List Surface) (ffi : List String)
    (hdata : camSurfaceData primary cam ss = .ok (yuvS, ffi))
    (hcase :
      (∃ A B C s1 s2, yuvS = A ++ s1 :: B ++ s2 :: C ∧
        ((∃ w h, s1.width = some w ∧ s1.height = some h ∧
           s2.width = some w ∧ s2.height = some h) ∨
         (s1.width = none ∧ s1.height = none ∧ s2.width = none ∧
           s2.height = none))) ∨
      (∃ A B C f, ffi = A ++ f :: B ++ f :: C ∧ f ≠ "yuv" ∧
        yuvS.length ≤ ffi.count "yuv")) :
    ∃ e, (e = ItsError.yuvSameSize ∨ e = ItsError.duplicateFormat) ∧
      camCheck primary cam (some pr) ss = .error e := by
  unfold camCheck
  rw [hdata]
  dsimp only
  obtain ⟨m, hm⟩ := yuvMaxsize1d_ok pr hnz yuvS
  rw [hm]
  dsimp only
  rcases hcase with ⟨A, B, C, s1, s2, hsplit, hsz⟩ | ⟨A, B, C, f, hsplit, hfy, hny⟩
  · refine ⟨.yuvSameSize, Or.inl rfl, ?_⟩
    rw [hsplit]
    rw [if_pos (yuvSizes_dup_cond m A B C s1 s2 hsz)]
  · by_cases h1 : (yuvSizesList m yuvS).length ≠ setCard (yuvSizesList m yuvS)
    · exact ⟨.yuvSameSize, Or.inl rfl, by rw [if_pos h1]⟩
    · refine ⟨.duplicateFormat, Or.inr rfl, ?_⟩
      rw [if_neg h1, if_pos]
      constructor
      · rw [hsplit]
        exact Nat.lt_of_lt_of_le (setCard_lt_of_dup A B C f) (le_refl _)
      · have hcc : setCard ffi + ffi.count "yuv" ≤ ffi.length := by
          apply length_ge_card_add_count ffi f "yuv" hfy
          rw [hsplit]
          exact count_two_of_dup A B C f
        have hcard : setCard ffi ≤ ffi.length := List.toFinset_card_le _
        have hlt : setCard ffi < ffi.length := by
          rw [hsplit]
          exact setCard_lt_of_dup A B C f
        omega

theorem camIdList_aux_mono (primary : String) :
    ∀ (surfaces : List Surface) (acc : List String) (c : String),
      c ∈ acc →
      c ∈ surfaces.foldl (fun acc s =>
        let c2 := s.physicalCamera.getD primary
        if c2 ∈ acc then acc else acc ++ [c2]) acc := by
  intro surfaces
  induction surfaces with
  | nil => intro acc c hc; exact hc
  | cons s ss ih =>
    intro acc c hc
    simp only [List.foldl_cons]
    apply ih
    by_cases hmem : s.physicalCamera.getD primary ∈ acc
    · simpa [hmem] using hc
    · simp only [hmem, if_false]
      exact List.mem_append_left _ hc

theorem camIdList_mem (primary : String) :
    ∀ (surfaces : List Surface) (s : Surface), s ∈ surfaces →
      s.physicalCamera.getD primary ∈ camIdList primary surfaces := by
  have haux : ∀ (surfaces : List Surface) (acc : List String) (s : Surface),
      s ∈ surfaces →
      s.physicalCamera.getD primary ∈ surfaces.foldl (fun acc t =>
        let c2 := t.physicalCamera.getD primary
        if c2 ∈ acc then acc else acc ++ [c2]) acc := by
    intro surfaces
    induction surfaces with
    | nil => intro acc s hs; simp at hs
    | cons t ts ih =>
      intro acc s hs
      simp only [List.foldl_cons]
      rcases List.mem_cons.mp hs with hst | hmem
      · subst hst
        apply camIdList_aux_mono
        by_cases hmem2 : s.physicalCamera.getD primary ∈ acc
        · simpa [hmem2] using hmem2
        · simp [hmem2]
      · exact ih _ s hmem
  intro surfaces s hs
  exact haux surfaces [] s hs

theorem validateCams_error (primary : String) (props : Option Props)
    (surfaces : List Surface) :
    ∀ (cams : List String) (cam : String), cam ∈ cams →
      (∀ c ∈ cams, ∀ e, camCheck primary c props surfaces = .error e →
        e = ItsError.yuvSameSize ∨ e = ItsError.duplicateFormat) →
      (∃ e0, camCheck primary cam props surfaces = .error e0) →
      ∃ e, (e = ItsError.yuvSameSize ∨ e = ItsError.duplicateFormat) ∧
        validateCams primary props surfaces cams = .error e := by
  intro cams
  induction cams with
  | nil => intro cam hc; simp at hc
  | cons c rest ih =>
    intro cam hc hkinds hfail
    cases hcc : camCheck primary c props surfaces with
    | error e =>
      refine ⟨e, hkinds c (by simp) e hcc, ?_⟩
      simp only [validateCams, hcc]
    | ok sizes =>
      have hcam : cam ∈ rest := by
        rcases List.mem_cons.mp hc with hceq | hmem
        · subst hceq
          obtain ⟨e0, he0⟩ := hfail
          rw [hcc] at he0
          exact Except.noConfusion he0
        · exact hmem
      obtain ⟨e, hek, hev⟩ := ih cam hcam
        (fun c2 hc2 => hkinds c2 (by simp [hc2])) hfail
      refine ⟨e, hek, ?_⟩
      simp only [validateCams, hcc, hev]

theorem claim_C2_core (primary cam : String) (pr : Props)
    (hnz : pr.yuvSizes ≠ []) (l1 l2 l3 : List Surface) (s1 s2 : Surface)
    (pv : Option String)
    (hps1 : s1.physicalCamera = pv) (hps2 : s2.physicalCamera = pv)
    (hdata : camSurfaceData primary cam (l1 ++ s1 :: l2 ++ s2 :: l3) =
      .ok ((l1 ++ s1 :: l2 ++ s2 :: l3).filter (fun s =>
             s.sformat = some "yuv" ∧ s.physicalCamera = pv),
           ((l1 ++ s1 :: l2 ++ s2 :: l3).filter (fun s =>
             s.physicalCamera = pv)).map (fun s => s.sformat.getD "")))
    (hcase :
      (s1.sformat = some "yuv" ∧ s2.sformat = some "yuv" ∧
        ((∃ w h, s1.width = some w ∧ s1.height = some h ∧
           s2.width = some w ∧ s2.height = some h) ∨
         (s1.width = none ∧ s1.height = none ∧ s2.width = none ∧
           s2.height = none))) ∨
      (∃ f, s1.sformat = some f ∧ s2.sformat = some f ∧ f ≠ "yuv")) :
    ∃ e, (e = ItsError.yuvSameSize ∨ e = ItsError.duplicateFormat) ∧
      camCheck primary cam (some pr) (l1 ++ s1 :: l2 ++ s2 :: l3) =
        .error e := by
  apply camCheck_fails primary cam pr hnz _ _ _ hdata
  rcases hcase with ⟨hy1, hy2, hsz⟩ | ⟨f, hf1, hf2, hfy⟩
  · left
    refine ⟨l1.filter (fun s =>
        s.sformat = some "yuv" ∧ s.physicalCamera = pv),
      l2.filter (fun s => s.sformat = some "yuv" ∧ s.physicalCamera = pv),
      l3.filter (fun s => s.sformat = some "yuv" ∧ s.physicalCamera = pv),
      s1, s2, ?_, hsz⟩
    simp only [List.filter_append, List.filter_cons]
    simp [hy1, hy2, hps1, hps2]
  · right
    have hfilc : (l1 ++ s1 :: l2 ++ s2 :: l3).filter
        (fun s => s.physicalCamera = pv) =
        l1.filter (fun s => s.physicalCamera = pv) ++ s1 ::
          l2.filter (fun s => s.physicalCamera = pv) ++ s2 ::
          l3.filter (fun s => s.physicalCamera = pv) := by
      simp only [List.filter_append, List.filter_cons]
      simp [hps1, hps2]
    refine ⟨(l1.filter (fun s => s.physicalCamera = pv)).map
        (fun s => s.sformat.getD ""),
      (l2.filter (fun s => s.physicalCamera = pv)).map
        (fun s => s.sformat.getD ""),
      (l3.filter (fun s => s.physicalCamera = pv)).map
        (fun s => s.sformat.getD ""),
      f, ?_, hfy, ?_⟩
    · rw [hfilc]
      simp [hf1, hf2]
    · apply Nat.le_trans ?_ (count_map_ge (fun s => s.sformat.getD "")
        "yuv" ((l1 ++ s1 :: l2 ++ s2 :: l3).filter
          (fun s => s.physicalCamera = pv))
        (fun s => decide (s.sformat = some "yuv")) ?_)
      · rw [List.filter_filter]
        apply Nat.le_of_eq
        simp only [Bool.decide_and]
      · intro s hs
        have hs2 : s.sformat = some "yuv" := of_decide_eq_true hs
        simp [hs2]

/-- C2: an out_surfaces list with two YUV surfaces of the same camera that
resolve to the same buffer bucket (same explicit width and height, or both
defaulting to the maximum YUV size), or with the same non-YUV format twice
for the same camera, makes `do_capture` fail with the corresponding
validation error before the send is reached: the returned record shows the
command unsent, the timeout untouched and the wire unread, for every
wire. -/
theorem claim_C2 (sess : Sess) (pr : Props) (capRequest : ReqArg)
    (repeatRequest : RepeatArg) (l1 l2 l3 : List Surface) (s1 s2 : Surface)
    (hpr : sess.props = some pr) (hnz : pr.yuvSizes ≠ [])
    (hhid : sess.hiddenPhysicalId = none)
    (hfmt : ∀ s ∈ l1 ++ s1 :: l2 ++ s2 :: l3, s.sformat ≠ none)
    (hphys : s1.physicalCamera = s2.physicalCamera)
    (hno : s1.physicalCamera = none ∨
      ∃ c, s1.physicalCamera = some c ∧ c ≠ sess.cameraId)
    (hcase :
      (s1.sformat = some "yuv" ∧ s2.sformat = some "yuv" ∧
        ((∃ w h, s1.width = some w ∧ s1.height = some h ∧
           s2.width = some w ∧ s2.height = some h) ∨
         (s1.width = none ∧ s1.height = none ∧ s2.width = none ∧
           s2.height = none))) ∨
      (∃ f, s1.sformat = some f ∧ s2.sformat = some f ∧ f ≠ "yuv")) :
    ∀ (t0 : Nat) (wire : List InFrame),
      ∃ e, (e = ItsError.yuvSameSize ∨ e = ItsError.duplicateFormat) ∧
        do_capture sess capRequest (.listOf (l1 ++ s1 :: l2 ++ s2 :: l3))
          none repeatRequest t0 wire =
        { result := .error e, sent := false, sendTimeout := none,
          finalTimeout := t0, rest := wire } := by
  intro t0 wire
  have hs1 : s1 ∈ l1 ++ s1 :: l2 ++ s2 :: l3 := by simp
  have hany : (l1 ++ s1 :: l2 ++ s2 :: l3).any
      (fun s => s.sformat = none) = false := by
    rw [List.any_eq_false]
    intro s hs
    simpa using hfmt s hs
  have hfail : ∃ e, (e = ItsError.yuvSameSize ∨
      e = ItsError.duplicateFormat) ∧
      camCheck sess.cameraId (s1.physicalCamera.getD sess.cameraId)
        (some pr) (l1 ++ s1 :: l2 ++ s2 :: l3) = .error e := by
    rcases hno with hpc1 | ⟨c, hpc1, hcne⟩
    · have hcam : s1.physicalCamera.getD sess.cameraId = sess.cameraId := by
        rw [hpc1]; rfl
      rw [hcam]
      exact claim_C2_core sess.cameraId sess.cameraId pr hnz l1 l2 l3 s1 s2
        none hpc1 (hphys ▸ hpc1)
        (camSurfaceData_primary sess.cameraId _ hany) hcase
    · have hcam : s1.physicalCamera.getD sess.cameraId = c := by
        rw [hpc1]; rfl
      rw [hcam]
      exact claim_C2_core sess.cameraId c pr hnz l1 l2 l3 s1 s2
        (some c) hpc1 (hphys ▸ hpc1)
        (camSurfaceData_physical sess.cameraId c hcne _ hany) hcase
  obtain ⟨e0, he0k, he0⟩ := hfail
  have hmem : s1.physicalCamera.getD sess.cameraId ∈
      camIdList sess.cameraId (l1 ++ s1 :: l2 ++ s2 :: l3) :=
    camIdList_mem sess.cameraId _ s1 hs1
  obtain ⟨e, hek, hev⟩ := validateCams_error sess.cameraId (some pr)
    (l1 ++ s1 :: l2 ++ s2 :: l3)
    (camIdList sess.cameraId (l1 ++ s1 :: l2 ++ s2 :: l3))
    (s1.physicalCamera.getD sess.cameraId) hmem
    (fun c2 _ e2 he2 => camCheck_error_kinds sess.cameraId c2 pr hnz _
      hany e2 he2)
    ⟨e0, he0⟩
  have hbuild : buildCmd sess capRequest
      (.listOf (l1 ++ s1 :: l2 ++ s2 :: l3)) none repeatRequest =
      .error e := by
    unfold buildCmd
    rw [if_neg (by simp)]
    dsimp only
    simp only [hhid]
    simp only [List.map_id']
    rw [hpr, hev]
  exact ⟨e, hek, by simp only [do_capture, hbuild]⟩

/-- Witness for C2: two identical explicit-size YUV surfaces on the primary
camera make `do_capture` return a validation error with nothing sent and
the wire untouched. -/
theorem claim_C2_witness :
    ∃ e, (e = ItsError.yuvSameSize ∨ e = ItsError.duplicateFormat) ∧
      do_capture { cameraId := "0", props := some { yuvSizes := [(8, 6)] } }
        (.single {}) (.listOf [surfA, surfA]) none .noneGiven 20 wireA =
      { result := .error e, sent := false, sendTimeout := none,
        finalTimeout := 20, rest := wireA } :=
  claim_C2 { cameraId := "0", props := some { yuvSizes := [(8, 6)] } }
    { yuvSizes := [(8, 6)] } (.single {}) .noneGiven [] [] [] surfA surfA
    rfl (by simp) rfl (by simp [surfA]) rfl (Or.inl rfl)
    (Or.inl ⟨rfl, rfl, Or.inl ⟨4, 6, rfl, rfl, rfl, rfl⟩⟩) 20 wireA

/-! ## Claim C1: the receive loop consumes exactly the expected frames and
the demultiplexer pairs each buffer with its stream position -/

/-- The `captureResult` entry carried by a frame, when it is a
`captureResults` frame (line 1413). -/
def crMd : InFrame → Option Md
  | .captureResults m _ _ => some m
  | _ => none

/-- The `physicalResults` entry carried by a `captureResults` frame
(line 1414). -/
def crPhys : InFrame → Option (List PhysEntry)
  | .captureResults _ p _ => some p
  | _ => none

/-- The `outputs` entry carried by a `captureResults` frame (line 1415). -/
def crOuts : InFrame → Option (List OutputDesc)
  | .captureResults _ _ o => some o
  | _ => none

/-- The `outputs` list of the last `captureResults` frame of a wire
segment: `widths`/`heights` are overwritten on every such frame (lines
1416-1417), so this is what they hold when the loop finishes. -/
def lastOuts : List InFrame → Option (List OutputDesc)
  | [] => none
  | f :: fs =>
    match lastOuts fs with
    | some o => some o
    | none => crOuts f

/-- How one inbound frame affects the receive-loop counters: counted as a
buffer (`nbufs += 1`), recorded as metadata (`mds.append`), silently
dropped, or raising an exception; one constructor per outcome of the
branch chain of `processFrame`. -/
inductive FrameEff where
  | buf | md | drop | fail
  deriving DecidableEq, Repr

/-- Classify one frame; mirror of the branch structure of `processFrame`
(lines 1397-1435), whose outcome depends only on the frame and the fixed
command data, never on the loop state. -/
def frameEff (primary : String) (camIds : List String)
    (buckets : List (String × List Nat)) : InFrame → FrameEff
  | .captureResults _ _ _ => .md
  | .other _ => .drop
  | .image ifmt sfx buf =>
    if ifmt ∈ list1 ∧ sfx = "" ∧ buf.isSome then
      if primary ∈ camIds then .buf else .fail
    else if ifmt = .priv then .buf
    else if ifmt = .yuv ∧ sfx = "" then
      match buf with
      | none => .fail
      | some b =>
        if bucketDefined buckets primary b.length then .buf else .fail
    else if ifmt ∈ list2 then
      if ifmt = .yuv then
        if sfx ∈ camIds then
          match buf with
          | none => .fail
          | some b =>
            if bucketDefined buckets sfx b.length then .buf else .fail
        else .drop
      else if sfx ∈ camIds then .buf else .drop
    else .drop

/-- The arrival one frame contributes to `bufs[cam][key]`, following the
same branch chain as `processFrame`. -/
def bufArrival (primary : String) (camIds : List String) (cam key : String) :
    InFrame → Option (Option Buf)
  | .image ifmt sfx buf =>
    if ifmt ∈ list1 ∧ sfx = "" ∧ buf.isSome then
      if cam = primary ∧ key = ifmt.key then some buf else none
    else if ifmt = .priv then none
    else if ifmt = .yuv ∧ sfx = "" then none
    else if ifmt ∈ list2 then
      if ifmt = .yuv then none
      else if sfx ∈ camIds then
        if cam = sfx ∧ key = ifmt.key then some buf else none
      else none
    else none
  | _ => none

/-- The arrival one frame contributes to `yuv_bufs[cam][n]`, following the
same branch chain as `processFrame`. -/
def yuvArrival (primary : String) (camIds : List String) (cam : String)
    (n : Nat) : InFrame → Option (Option Buf)
  | .image ifmt sfx buf =>
    if ifmt ∈ list1 ∧ sfx = "" ∧ buf.isSome then none
    else if ifmt = .priv then none
    else if ifmt = .yuv ∧ sfx = "" then
      match buf with
      | none => none
      | some b =>
        if cam = primary ∧ n = b.length then some (some b) else none
    else if ifmt ∈ list2 then
      if ifmt = .yuv then
        if sfx ∈ camIds then
          match buf with
          | none => none
          | some b =>
            if cam = sfx ∧ n = b.length then some (some b) else none
        else none
      else none
    else none
  | _ => none

/-- The receive-loop body iterated over a wire segment with the stopping
condition ignored: the state after processing every frame of the
segment. -/
def rxFold (primary : String) (camIds : List String)
    (buckets : List (String × List Nat)) :
    List InFrame → RxState → Except ItsError RxState
  | [], st => .ok st
  | f :: fs, st =>
    match processFrame primary camIds buckets st f with
    | .error e => .error e
    | .ok st2 => rxFold primary camIds buckets fs st2

/-- The camera id a surface's stream is filed under: its `physicalCamera`
entry, or the session camera when absent (lines 1439-1443). -/
def surfCam (primary : String) (surfaces : List Surface) (j : Nat) : String :=
  ((surfaces.getD j {}).physicalCamera).getD primary

/-- The width the last metadata frame reported for surface `j`. -/
def outW (outs : List OutputDesc) (j : Nat) : Nat :=
  (outs.getD j { oformat := "", width := 0, height := 0 }).width

/-- The height the last metadata frame reported for surface `j`. -/
def outH (outs : List OutputDesc) (j : Nat) : Nat :=
  (outs.getD j { oformat := "", width := 0, height := 0 }).height

/-- The ordered arrivals of one surface stream on a wire segment: the
sub-sequence of frames filed under that (camera, format, size-bucket)
stream, in arrival order. -/
def streamArrivals (primary : String) (camIds : List String)
    (good : List InFrame) (cam fmt : String) (bsize : Nat) :
    List (Option Buf) :=
  if fmt = "yuv" then good.filterMap (yuvArrival primary camIds cam bsize)
  else good.filterMap (bufArrival primary camIds cam fmt)

theorem rxLoop_eq (primary : String) (camIds : List String)
    (buckets : List (String × List Nat)) (target ncap : Nat)
    (wire : List InFrame) (st : RxState) :
    rxLoop primary camIds buckets target ncap wire st =
      if target ≤ st.nbufs ∧ ncap ≤ st.mds.length then .ok (st, wire)
      else
        match wire with
        | [] => .error .socketTimeout
        | f :: fs =>
          match processFrame primary camIds buckets st f with
          | .error e => .error e
          | .ok st2 => rxLoop primary camIds buckets target ncap fs st2 := by
  rw [rxLoop.eq_def]

theorem buildCmd_surfaces_len (sess : Sess) (capRequest : ReqArg)
    (outSurfaces : SurfArg) (reprocessFormat : Option String)
    (repeatRequest : RepeatArg) (info : CmdInfo)
    (hb : buildCmd sess capRequest outSurfaces reprocessFormat
      repeatRequest = .ok info) :
    info.surfaces.length = info.nsurf := by
  unfold buildCmd at hb
  repeat' first
    | split at hb
    | dsimp only at hb
  all_goals first
    | exact Except.noConfusion hb
    | (injection hb with h; subst h; simp)

/-- Effect of one successfully processed frame on every component of the
receive-loop state. -/
theorem processFrame_effect (primary : String) (camIds : List String)
    (buckets : List (String × List Nat)) (st st2 : RxState) (f : InFrame)
    (h : processFrame primary camIds buckets st f = .ok st2) :
    st2.nbufs = st.nbufs +
      (if frameEff primary camIds buckets f = FrameEff.buf then 1 else 0) ∧
    st2.mds = st.mds ++ (crMd f).toList ∧
    st2.physicalMds = st.physicalMds ++ (crPhys f).toList ∧
    st2.widths = (match crOuts f with
      | some o => some (o.map (fun d => d.width))
      | none => st.widths) ∧
    st2.heights = (match crOuts f with
      | some o => some (o.map (fun d => d.height))
      | none => st.heights) ∧
    (∀ cam key, st2.bufs cam key = st.bufs cam key ++
      (bufArrival primary camIds cam key f).toList) ∧
    (∀ cam n, st2.yuvBufs cam n = st.yuvBufs cam n ++
      (yuvArrival primary camIds cam n f).toList) := by
  cases f with
  | captureResults m phys outs =>
    simp only [processFrame] at h
    injection h with h2
    subst h2
    refine ⟨by simp [frameEff], by simp [crMd], by simp [crPhys],
      by simp [crOuts], by simp [crOuts],
      fun cam key => by simp [bufArrival], fun cam n => by simp [yuvArrival]⟩
  | other tag =>
    simp only [processFrame] at h
    injection h with h2
    subst h2
    refine ⟨by simp [frameEff], by simp [crMd], by simp [crPhys],
      by simp [crOuts], by simp [crOuts],
      fun cam key => by simp [bufArrival], fun cam n => by simp [yuvArrival]⟩
  | image ifmt sfx buf =>
    simp only [processFrame] at h
    repeat' first
      | dsimp only at h
      | split at h
    all_goals first
      | exact Except.noConfusion h
      | (injection h with h2; subst h2;
         refine ⟨?_, by simp [crMd], by simp [crPhys], by simp [crOuts],
           by simp [crOuts], fun cam key => ?_, fun cam n => ?_⟩ <;>
           simp_all [frameEff, bufArrival, yuvArrival, appendBufs,
             appendYuv] <;>
           (try (split_ifs <;> simp_all)))

/-- A frame not classified as failing is processed without an
exception. -/
theorem processFrame_ok_of_eff (primary : String) (camIds : List String)
    (buckets : List (String × List Nat)) (st : RxState) (f : InFrame)
    (h : frameEff primary camIds buckets f ≠ FrameEff.fail) :
    ∃ st2, processFrame primary camIds buckets st f = .ok st2 := by
  cases f with
  | captureResults m phys outs => exact ⟨_, rfl⟩
  | other tag => exact ⟨_, rfl⟩
  | image ifmt sfx buf =>
    simp only [processFrame]
    repeat' first
      | dsimp only
      | split
    all_goals first
      | exact ⟨_, rfl⟩
      | (exfalso; simp_all [frameEff])

/-- Effect of a successfully folded wire segment on every component of the
receive-loop state. -/
theorem rxFold_effect (primary : String) (camIds : List String)
    (buckets : List (String × List Nat)) :
    ∀ (ws : List InFrame) (st stF : RxState),
      rxFold primary camIds buckets ws st = .ok stF →
      stF.nbufs = st.nbufs + ws.countP
        (fun f => decide (frameEff primary camIds buckets f =
          FrameEff.buf)) ∧
      stF.mds = st.mds ++ ws.filterMap crMd ∧
      stF.physicalMds = st.physicalMds ++ ws.filterMap crPhys ∧
      stF.widths = (match lastOuts ws with
        | some o => some (o.map (fun d => d.width))
        | none => st.widths) ∧
      stF.heights = (match lastOuts ws with
        | some o => some (o.map (fun d => d.height))
        | none => st.heights) ∧
      (∀ cam key, stF.bufs cam key = st.bufs cam key ++
        ws.filterMap (bufArrival primary camIds cam key)) ∧
      (∀ cam n, stF.yuvBufs cam n = st.yuvBufs cam n ++
        ws.filterMap (yuvArrival primary camIds cam n)) := by
  intro ws
  induction ws with
  | nil =>
    intro st stF h
    injection h with h2
    subst h2
    simp [lastOuts]
  | cons f fs ih =>
    intro st stF h
    rw [rxFold] at h
    cases hp : processFrame primary camIds buckets st f with
    | error e => rw [hp] at h; exact Except.noConfusion h
    | ok st1 =>
      rw [hp] at h
      obtain ⟨e1, e2, e3, e4, e5, e6, e7⟩ :=
        processFrame_effect primary camIds buckets st st1 f hp
      obtain ⟨g1, g2, g3, g4, g5, g6, g7⟩ := ih st1 stF h
      refine ⟨?_, ?_, ?_, ?_, ?_, ?_, ?_⟩
      · rw [g1, e1, List.countP_cons]
        by_cases hb : frameEff primary camIds buckets f = FrameEff.buf <;>
          simp [hb] <;> omega
      · rw [g2, e2, List.filterMap_cons]
        cases hc : crMd f <;> simp
      · rw [g3, e3, List.filterMap_cons]
        cases hc : crPhys f <;> simp
      · rw [g4, e4]
        show (match lastOuts fs with
          | some o => some (o.map (fun (d : OutputDesc) => d.width))
          | none => match crOuts f with
            | some o => some (o.map (fun (d : OutputDesc) => d.width))
            | none => st.widths) = _
        cases hl : lastOuts fs <;> cases ho : crOuts f <;>
          simp [lastOuts, hl, ho]
      · rw [g5, e5]
        show (match lastOuts fs with
          | some o => some (o.map (fun (d : OutputDesc) => d.height))
          | none => match crOuts f with
            | some o => some (o.map (fun (d : OutputDesc) => d.height))
            | none => st.heights) = _
        cases hl : lastOuts fs <;> cases ho : crOuts f <;>
          simp [lastOuts, hl, ho]
      · intro cam key
        rw [g6 cam key, e6 cam key, List.filterMap_cons]
        cases hb : bufArrival primary camIds cam key f <;>
          simp [List.append_assoc]
      · intro cam n
        rw [g7 cam n, e7 cam n, List.filterMap_cons]
        cases hb : yuvArrival primary camIds cam n f <;>
          simp [List.append_assoc]

/-- Image frames are never classified as metadata. -/
theorem frameEff_image_ne_md (primary : String) (camIds : List String)
    (buckets : List (String × List Nat)) (ifmt : ImgFmt) (sfx : String)
    (buf : Option Buf) :
    frameEff primary camIds buckets (.image ifmt sfx buf) ≠ FrameEff.md := by
  simp only [frameEff]
  repeat' first
    | dsimp only
    | split
  all_goals simp

/-- A wire fold over frames that are all counted or recorded advances
`nbufs + len(mds)` by exactly one per frame. -/
theorem rxFold_S (primary : String) (camIds : List String)
    (buckets : List (String × List Nat)) :
    ∀ (ws : List InFrame) (st stF : RxState),
      rxFold primary camIds buckets ws st = .ok stF →
      (∀ f ∈ ws, frameEff primary camIds buckets f = FrameEff.buf ∨
        frameEff primary camIds buckets f = FrameEff.md) →
      stF.nbufs + stF.mds.length =
        st.nbufs + st.mds.length + ws.length := by
  intro ws
  induction ws with
  | nil =>
    intro st stF h _
    injection h with h2
    subst h2
    simp
  | cons f fs ih =>
    intro st stF h heff
    rw [rxFold] at h
    cases hp : processFrame primary camIds buckets st f with
    | error e => rw [hp] at h; exact Except.noConfusion h
    | ok st1 =>
      rw [hp] at h
      obtain ⟨e1, e2, _, _, _, _, _⟩ :=
        processFrame_effect primary camIds buckets st st1 f hp
      have hstep : st1.nbufs + st1.mds.length =
          st.nbufs + st.mds.length + 1 := by
        rcases heff f (by simp) with hb | hm
        · have hcr : crMd f = none := by
            cases f with
            | captureResults m phys outs => simp [frameEff] at hb
            | other tag => simp [frameEff] at hb
            | image ifmt sfx buf => rfl
          rw [e1, e2, hcr, hb]
          simp
          all_goals omega
        · cases f with
          | captureResults m phys outs =>
            rw [e1, e2]
            simp [frameEff, crMd]
            all_goals omega
          | other tag => simp [frameEff] at hm
          | image ifmt sfx buf =>
            exact absurd hm
              (frameEff_image_ne_md primary camIds buckets ifmt sfx buf)
      have := ih st1 stF h (fun g hg => heff g (by simp [hg]))
      simp only [List.length_cons]
      omega

/-- A wire segment of non-failing frames folds without an exception. -/
theorem rxFold_ok (primary : String) (camIds : List String)
    (buckets : List (String × List Nat)) :
    ∀ (ws : List InFrame) (st : RxState),
      (∀ f ∈ ws, frameEff primary camIds buckets f ≠ FrameEff.fail) →
      ∃ stF, rxFold primary camIds buckets ws st = .ok stF := by
  intro ws
  induction ws with
  | nil => intro st _; exact ⟨st, rfl⟩
  | cons f fs ih =>
    intro st h
    obtain ⟨st1, hp⟩ :=
      processFrame_ok_of_eff primary camIds buckets st f (h f (by simp))
    obtain ⟨stF, hf⟩ := ih st1 (fun g hg => h g (by simp [hg]))
    refine ⟨stF, ?_⟩
    rw [rxFold, hp]
    exact hf

/-- The receive loop on a wire made of the expected frames followed by
anything: it consumes exactly the expected frames — no stop happens
earlier, because the running counters only reach the thresholds on the
last frame — and returns the folded state with the remainder unread. -/
theorem rxLoop_exact (primary : String) (camIds : List String)
    (buckets : List (String × List Nat)) (target ncap : Nat) :
    ∀ (good junk : List InFrame) (st0 stF : RxState),
      rxFold primary camIds buckets good st0 = .ok stF →
      (∀ f ∈ good, frameEff primary camIds buckets f = FrameEff.buf ∨
        frameEff primary camIds buckets f = FrameEff.md) →
      stF.nbufs = target → stF.mds.length = ncap →
      rxLoop primary camIds buckets target ncap (good ++ junk) st0 =
        .ok (stF, junk) := by
  intro good
  induction good with
  | nil =>
    intro junk st0 stF hfold heff hN hM
    injection hfold with h2
    subst h2
    rw [rxLoop_eq, if_pos ⟨hN.ge, hM.ge⟩]
    simp
  | cons f fs ih =>
    intro junk st0 stF hfold heff hN hM
    rw [rxFold] at hfold
    cases hp : processFrame primary camIds buckets st0 f with
    | error e => rw [hp] at hfold; exact Except.noConfusion hfold
    | ok st1 =>
      rw [hp] at hfold
      have hS := rxFold_S primary camIds buckets (f :: fs) st0 stF
        (by rw [rxFold, hp]; exact hfold) heff
      have hstop : ¬ (target ≤ st0.nbufs ∧ ncap ≤ st0.mds.length) := by
        rintro ⟨h1, h2⟩
        simp only [List.length_cons] at hS
        omega
      rw [List.cons_append, rxLoop_eq, if_neg hstop]
      dsimp only
      rw [hp]
      exact ih junk st1 stF hfold (fun g hg => heff g (by simp [hg])) hN hM

/-- Every `captureResults` frame carries both a `captureResult` and a
`physicalResults` entry, so the two recorded sequences have equal
length. -/
theorem filterMap_crPhys_length (ws : List InFrame) :
    (ws.filterMap crPhys).length = (ws.filterMap crMd).length := by
  induction ws with
  | nil => rfl
  | cons f fs ih =>
    cases f <;> simp [List.filterMap_cons, crMd, crPhys, ih]

/-- Evaluation of one reassembly cell from the characterised final loop
state: reported dimensions of surface `j`, the metadata of capture `i`
(looked up in the physical map for a physical-camera surface), and the
`i`-th arrival of surface `j`'s stream. -/
theorem assembleCell_eval (primary : String) (camIds : List String)
    (buckets : List (String × List Nat)) (surfaces : List Surface)
    (formats : List String) (st : RxState) (good : List InFrame)
    (outs : List OutputDesc) (j i : Nat)
    (hwidths : st.widths = some (outs.map (fun d => d.width)))
    (hheights : st.heights = some (outs.map (fun d => d.height)))
    (hmds : st.mds = good.filterMap crMd)
    (hphysm : st.physicalMds = good.filterMap crPhys)
    (hbufsF : ∀ cam key, st.bufs cam key =
      good.filterMap (bufArrival primary camIds cam key))
    (hyuvF : ∀ cam n, st.yuvBufs cam n =
      good.filterMap (yuvArrival primary camIds cam n))
    (hjo : j < outs.length) (hjs : j < surfaces.length)
    (hjf : j < formats.length)
    (hi : i < (good.filterMap crMd).length)
    (hstreamj : formats.getD j "" ≠ "priv" →
      (streamArrivals primary camIds good (surfCam primary surfaces j)
        (formats.getD j "") ((outW outs j * outH outs j * 3) / 2)).length =
        (good.filterMap crMd).length)
    (hrecvj1 : formats.getD j "" = "yuv" →
      bucketDefined buckets (surfCam primary surfaces j)
        ((outW outs j * outH outs j * 3) / 2) = true)
    (hrecvj2 : formats.getD j "" ≠ "yuv" → formats.getD j "" ≠ "priv" →
      surfCam primary surfaces j ∈ camIds ∧
      formats.getD j "" ∈ bufsFormats8) :
    assembleCell primary camIds buckets surfaces formats st j i = .ok
      { width := outW outs j, height := outH outs j,
        rformat := formats.getD j "",
        metadata := if surfCam primary surfaces j = primary then
            (good.filterMap crMd).get? i
          else ((good.filterMap crPhys).get? i).bind (fun ps =>
            physLookup ps (surfCam primary surfaces j)),
        data := if formats.getD j "" = "priv" then none
          else (streamArrivals primary camIds good
            (surfCam primary surfaces j) (formats.getD j "")
            ((outW outs j * outH outs j * 3) / 2)).get? i } := by
  obtain ⟨o, ho⟩ : ∃ o, outs.get? j = some o := ⟨_, List.get?_eq_get hjo⟩
  obtain ⟨s, hs⟩ : ∃ s, surfaces.get? j = some s :=
    ⟨_, List.get?_eq_get hjs⟩
  obtain ⟨fmt, hf⟩ : ∃ f, formats.get? j = some f :=
    ⟨_, List.get?_eq_get hjf⟩
  have hoW : outW outs j = o.width := by
    rw [show outW outs j = ((outs.get? j).getD
      { oformat := "", width := 0, height := 0 }).width from rfl, ho]
    rfl
  have hoH : outH outs j = o.height := by
    rw [show outH outs j = ((outs.get? j).getD
      { oformat := "", width := 0, height := 0 }).height from rfl, ho]
    rfl
  have hfd : formats.getD j "" = fmt := by
    rw [show formats.getD j "" = (formats.get? j).getD "" from rfl, hf]
    rfl
  have hsc : surfCam primary surfaces j =
      s.physicalCamera.getD primary := by
    rw [show surfCam primary surfaces j =
      (((surfaces.get? j).getD {}).physicalCamera).getD primary from rfl,
      hs]
    rfl
  obtain ⟨mi, hmi⟩ : ∃ m, (good.filterMap crMd).get? i = some m :=
    ⟨_, List.get?_eq_get hi⟩
  rw [hfd, hsc] at hstreamj hrecvj1 hrecvj2 ⊢
  rw [hoW, hoH] at hstreamj hrecvj1 ⊢
  simp only [assembleCell, hwidths, hheights, List.get?_map, ho, hs, hf,
    Option.map_some']
  have hmdE : (if s.physicalCamera.getD primary = primary then
      match st.mds.get? i with
      | some m => Except.ok (some m)
      | none => Except.error ItsError.indexError
    else
      match st.physicalMds.get? i with
      | some ps => Except.ok (physLookup ps (s.physicalCamera.getD primary))
      | none => Except.error ItsError.indexError) =
    (Except.ok (if s.physicalCamera.getD primary = primary
      then (good.filterMap crMd).get? i
      else ((good.filterMap crPhys).get? i).bind (fun ps =>
        physLookup ps (s.physicalCamera.getD primary))) :
      Except ItsError (Option Md)) := by
    by_cases hcam : s.physicalCamera.getD primary = primary
    · rw [if_pos hcam, if_pos hcam, hmds, hmi]
    · rw [if_neg hcam, if_neg hcam, hphysm]
      obtain ⟨ps, hps⟩ : ∃ ps, (good.filterMap crPhys).get? i = some ps :=
        ⟨_, List.get?_eq_get (by rw [filterMap_crPhys_length]; exact hi)⟩
      rw [hps]
      rfl
  rw [hmdE]
  dsimp only
  by_cases hy : fmt = "yuv"
  · subst hy
    rw [if_pos rfl, if_pos (hrecvj1 rfl)]
    have hsa : streamArrivals primary camIds good
        (s.physicalCamera.getD primary) "yuv" (o.width * o.height * 3 / 2) =
        good.filterMap (yuvArrival primary camIds
          (s.physicalCamera.getD primary) (o.width * o.height * 3 / 2)) := by
      rw [streamArrivals, if_pos rfl]
    obtain ⟨el, hel⟩ : ∃ el, (good.filterMap (yuvArrival primary camIds
        (s.physicalCamera.getD primary)
        (o.width * o.height * 3 / 2))).get? i = some el := by
      refine ⟨_, List.get?_eq_get ?_⟩
      rw [← hsa, hstreamj (by decide)]
      exact hi
    rw [hyuvF, hel]
    simp [hsa]
    rw [← List.get?_eq_getElem?, hel]
  · by_cases hp : fmt = "priv"
    · subst hp
      rw [if_neg hy, if_neg (by simp)]
      simp
    · rw [if_neg hy, if_pos hp, if_pos (hrecvj2 hy hp)]
      have hsa : streamArrivals primary camIds good
          (s.physicalCamera.getD primary) fmt (o.width * o.height * 3 / 2) =
          good.filterMap (bufArrival primary camIds
            (s.physicalCamera.getD primary) fmt) := by
        rw [streamArrivals, if_neg hy]
      obtain ⟨el, hel⟩ : ∃ el, (good.filterMap (bufArrival primary camIds
          (s.physicalCamera.getD primary) fmt)).get? i = some el := by
        refine ⟨_, List.get?_eq_get ?_⟩
        rw [← hsa, hstreamj hp]
        exact hi
      rw [hbufsF, hel]
      simp [hsa, hp]
      rw [← List.get?_eq_getElem?, hel]

/-- C1: for a validated capture command of N surfaces and a burst of M
requests, and any wire whose initial segment consists of counted buffer
frames and metadata frames in any order — N*M buffers of which exactly M
land on each requested stream (per-stream arrival order is the capture
order by assumption on the service), plus M `captureResults` frames — the
receive loop of `do_capture` stops exactly at the end of that segment,
leaving the rest of the wire unread, and the reassembled result pairs
surface `j` and capture `i` with the `i`-th buffer that arrived on surface
`j`'s (camera, format, size-bucket) stream and with capture `i`'s metadata
— the physical-camera entry of capture `i` when surface `j` targets a
physical camera.  The loop counter `nbufs` counts opaque (`priv`) frames
like any other buffer frame, and their cells carry no data entry. -/
theorem claim_C1 (sess : Sess) (capRequest : ReqArg) (outSurfaces : SurfArg)
    (reprocessFormat : Option String) (repeatRequest : RepeatArg)
    (t0 : Nat) (good junk : List InFrame) (info : CmdInfo)
    (outs : List OutputDesc)
    (hb : buildCmd sess capRequest outSurfaces reprocessFormat
      repeatRequest = .ok info)
    (heff : ∀ f ∈ good,
      frameEff sess.cameraId info.camIds info.buckets f = FrameEff.buf ∨
      frameEff sess.cameraId info.camIds info.buckets f = FrameEff.md)
    (hbufN : good.countP (fun f =>
        decide (frameEff sess.cameraId info.camIds info.buckets f =
          FrameEff.buf)) = info.ncap * info.nsurf)
    (hmdN : (good.filterMap crMd).length = info.ncap)
    (houts : lastOuts good = some outs)
    (houtlen : info.nsurf ≤ outs.length)
    (hstream : ∀ j, j < info.nsurf → info.formats.getD j "" ≠ "priv" →
      (streamArrivals sess.cameraId info.camIds good
        (surfCam sess.cameraId info.surfaces j) (info.formats.getD j "")
        ((outW outs j * outH outs j * 3) / 2)).length = info.ncap)
    (hrecv : ∀ j, j < info.nsurf →
      (info.formats.getD j "" = "yuv" →
        bucketDefined info.buckets (surfCam sess.cameraId info.surfaces j)
          ((outW outs j * outH outs j * 3) / 2) = true) ∧
      (info.formats.getD j "" ≠ "yuv" → info.formats.getD j "" ≠ "priv" →
        surfCam sess.cameraId info.surfaces j ∈ info.camIds ∧
        info.formats.getD j "" ∈ bufsFormats8)) :
    do_capture_results sess info (good ++ junk) = .ok
      ((List.range info.nsurf).map (fun j =>
        (List.range info.ncap).map (fun i =>
          { width := outW outs j, height := outH outs j,
            rformat := info.formats.getD j "",
            metadata :=
              if surfCam sess.cameraId info.surfaces j = sess.cameraId then
                (good.filterMap crMd).get? i
              else
                ((good.filterMap crPhys).get? i).bind (fun ps =>
                  physLookup ps (surfCam sess.cameraId info.surfaces j)),
            data :=
              if info.formats.getD j "" = "priv" then none
              else (streamArrivals sess.cameraId info.camIds good
                (surfCam sess.cameraId info.surfaces j)
                (info.formats.getD j "")
                ((outW outs j * outH outs j * 3) / 2)).get? i })),
       junk) ∧
    (do_capture sess capRequest outSurfaces reprocessFormat repeatRequest
      t0 (good ++ junk)).sent = true ∧
    (do_capture sess capRequest outSurfaces reprocessFormat repeatRequest
      t0 (good ++ junk)).rest = junk := by
  obtain ⟨hflen, -⟩ := buildCmd_formats_len sess capRequest outSurfaces
    reprocessFormat repeatRequest info hb
  have hslen := buildCmd_surfaces_len sess capRequest outSurfaces
    reprocessFormat repeatRequest info hb
  obtain ⟨stF, hfold⟩ := rxFold_ok sess.cameraId info.camIds info.buckets
    good initRxState (fun f hf => by
      rcases heff f hf with h | h <;> simp [h])
  obtain ⟨e1, e2, e3, e4, e5, e6, e7⟩ := rxFold_effect sess.cameraId
    info.camIds info.buckets good initRxState stF hfold
  have hmds : stF.mds = good.filterMap crMd := by
    rw [e2]; rfl
  have hphysm : stF.physicalMds = good.filterMap crPhys := by
    rw [e3]; rfl
  have hbufsF : ∀ cam key, stF.bufs cam key =
      good.filterMap (bufArrival sess.cameraId info.camIds cam key) := by
    intro cam key; rw [e6]; rfl
  have hyuvF : ∀ cam n, stF.yuvBufs cam n =
      good.filterMap (yuvArrival sess.cameraId info.camIds cam n) := by
    intro cam n; rw [e7]; rfl
  have hnbufs : stF.nbufs = info.ncap * info.nsurf := by
    rw [e1, hbufN]; simp [initRxState]
  have hmlen : stF.mds.length = info.ncap := by rw [hmds, hmdN]
  have hrx : rxLoop sess.cameraId info.camIds info.buckets
      (info.ncap * info.nsurf) info.ncap (good ++ junk) initRxState =
      .ok (stF, junk) :=
    rxLoop_exact sess.cameraId info.camIds info.buckets
      (info.ncap * info.nsurf) info.ncap good junk initRxState stF hfold
      heff hnbufs hmlen
  have hwidths : stF.widths = some (outs.map (fun d => d.width)) := by
    rw [e4, houts]
  have hheights : stF.heights = some (outs.map (fun d => d.height)) := by
    rw [e5, houts]
  have hasm : assembleAll sess.cameraId info.camIds info.buckets
      info.surfaces info.formats info.ncap stF = .ok
      ((List.range info.nsurf).map (fun j =>
        (List.range info.ncap).map (fun i =>
          { width := outW outs j, height := outH outs j,
            rformat := info.formats.getD j "",
            metadata :=
              if surfCam sess.cameraId info.surfaces j = sess.cameraId then
                (good.filterMap crMd).get? i
              else
                ((good.filterMap crPhys).get? i).bind (fun ps =>
                  physLookup ps (surfCam sess.cameraId info.surfaces j)),
            data :=
              if info.formats.getD j "" = "priv" then none
              else (streamArrivals sess.cameraId info.camIds good
                (surfCam sess.cameraId info.surfaces j)
                (info.formats.getD j "")
                ((outW outs j * outH outs j * 3) / 2)).get? i }))) := by
    unfold assembleAll
    rw [hflen]
    refine mapM_ok_of_total _ _ _ (fun j hj => ?_)
    rw [List.mem_range] at hj
    refine mapM_ok_of_total _ _ _ (fun i hi => ?_)
    rw [List.mem_range] at hi
    refine assembleCell_eval sess.cameraId info.camIds info.buckets
      info.surfaces info.formats stF good outs j i hwidths hheights hmds
      hphysm hbufsF hyuvF (lt_of_lt_of_le hj houtlen) (by omega) (by omega)
      (by omega) (fun hnp => ?_) (hrecv j hj).1 (hrecv j hj).2
    rw [hstream j hj hnp, hmdN]
  have hres : do_capture_results sess info (good ++ junk) = .ok
      ((List.range info.nsurf).map (fun j =>
        (List.range info.ncap).map (fun i =>
          { width := outW outs j, height := outH outs j,
            rformat := info.formats.getD j "",
            metadata :=
              if surfCam sess.cameraId info.surfaces j = sess.cameraId then
                (good.filterMap crMd).get? i
              else
                ((good.filterMap crPhys).get? i).bind (fun ps =>
                  physLookup ps (surfCam sess.cameraId info.surfaces j)),
            data :=
              if info.formats.getD j "" = "priv" then none
              else (streamArrivals sess.cameraId info.camIds good
                (surfCam sess.cameraId info.surfaces j)
                (info.formats.getD j "")
                ((outW outs j * outH outs j * 3) / 2)).get? i })),
       junk) := by
    unfold do_capture_results
    rw [hrx]
    dsimp only
    rw [hasm]
  refine ⟨hres, ?_, ?_⟩ <;>
    (unfold do_capture
     rw [hb]
     dsimp only
     rw [hres]
     dsimp only
     cases hsr : shapeRets info.ncap capRequest.isList
       ((List.range info.nsurf).map (fun j =>
        (List.range info.ncap).map (fun i =>
          { width := outW outs j, height := outH outs j,
            rformat := info.formats.getD j "",
            metadata :=
              if surfCam sess.cameraId info.surfaces j = sess.cameraId then
                (good.filterMap crMd).get? i
              else
                ((good.filterMap crPhys).get? i).bind (fun ps =>
                  physLookup ps (surfCam sess.cameraId info.surfaces j)),
            data :=
              if info.formats.getD j "" = "priv" then none
              else (streamArrivals sess.cameraId info.camIds good
                (surfCam sess.cameraId info.surfaces j)
                (info.formats.getD j "")
                ((outW outs j * outH outs j * 3) / 2)).get? i }))) <;>
       rfl)

/-- A session on camera "0" with one available YUV size, for the C1
witness. -/
def sessW : Sess := { cameraId := "0", props := some { yuvSizes := [(8, 6)] } }

/-- A JPEG surface without explicit size. -/
def surfJ : Surface := { sformat := some "jpeg" }

/-- The command data `buildCmd` produces for two requests over
`[surfA, surfJ]`. -/
def infoW : CmdInfo :=
  { surfaces := [surfA, surfJ], formats := ["yuv", "jpeg"], ncap := 2,
    nsurf := 2, camIds := ["0"], buckets := [("0", [36])], extTimeout := 20 }

/-- An interleaved but per-stream-ordered wire: four buffers (two YUV of
36 bytes, two JPEG) and two `captureResults` frames. -/
def goodW : List InFrame :=
  [.image .yuv "" (some (List.replicate 36 0)),
   .image .jpeg "" (some [7]),
   .captureResults 1 [] [{ oformat := "yuv", width := 4, height := 6 },
     { oformat := "jpeg", width := 4, height := 6 }],
   .image .jpeg "" (some [8]),
   .image .yuv "" (some (List.replicate 36 1)),
   .captureResults 2 [] [{ oformat := "yuv", width := 4, height := 6 },
     { oformat := "jpeg", width := 4, height := 6 }]]

/-- A frame beyond the stopping point, which must stay unread. -/
def junkW : List InFrame := [.other "z"]

/-- The outputs of the last metadata frame of `goodW`. -/
def outsW : List OutputDesc :=
  [{ oformat := "yuv", width := 4, height := 6 },
   { oformat := "jpeg", width := 4, height := 6 }]

/-- Witness for C1: two surfaces (YUV 4x6 and JPEG) with a burst of two
requests over an interleaved six-frame wire: the loop stops exactly after
the sixth frame, the trailing frame stays unread, and each cell pairs the
positional buffer of its stream with its capture's metadata. -/
theorem claim_C1_witness :
    do_capture_results sessW infoW (goodW ++ junkW) = .ok
      ((List.range infoW.nsurf).map (fun j =>
        (List.range infoW.ncap).map (fun i =>
          { width := outW outsW j, height := outH outsW j,
            rformat := infoW.formats.getD j "",
            metadata :=
              if surfCam sessW.cameraId infoW.surfaces j = sessW.cameraId
              then (goodW.filterMap crMd).get? i
              else ((goodW.filterMap crPhys).get? i).bind (fun ps =>
                physLookup ps (surfCam sessW.cameraId infoW.surfaces j)),
            data :=
              if infoW.formats.getD j "" = "priv" then none
              else (streamArrivals sessW.cameraId infoW.camIds goodW
                (surfCam sessW.cameraId infoW.surfaces j)
                (infoW.formats.getD j "")
                ((outW outsW j * outH outsW j * 3) / 2)).get? i })),
       junkW) ∧
    (do_capture sessW (.listOf [{}, {}]) (.listOf [surfA, surfJ]) none
      .noneGiven 20 (goodW ++ junkW)).sent = true ∧
    (do_capture sessW (.listOf [{}, {}]) (.listOf [surfA, surfJ]) none
      .noneGiven 20 (goodW ++ junkW)).rest = junkW :=
  claim_C1 sessW (.listOf [{}, {}]) (.listOf [surfA, surfJ]) none
    .noneGiven 20 goodW junkW infoW outsW rfl (by decide) (by decide) rfl
    rfl (by decide) (by decide) (by decide)

end Its
